import Mathlib

/-!
# water_reminder: record store, today aggregation and reminder scheduler

A shallow embedding of `src/src/core.c`, of the control code of
`src/src/main.c` and of the statistics functions of `src/src/ui.c`.

Modelling conventions

* C `int` and `time_t` values are mathematical integers (`Int`).  Signed
  overflow is undefined behaviour in C and lies outside the embedding; the
  conversion `int -> size_t`, which C defines, is modelled with an explicit
  reduction modulo `2^64` (`size_t_of_int`).
* `AppState.records` is the array `records[MAX_RECORDS]`, modelled as its slot
  function `i ↦ records[i]`; only the slots below `MAX_RECORDS` exist in C.
* `char` buffers holding C strings are `String`s; `strcmp(a, b) == 0` is
  string equality.
* The C library is an explicit input: every call of `time(NULL)` is an `Int`
  argument naming the value it returned, the composite
  `strftime(.., "%Y-%m-%d", localtime(&t))` is the function argument
  `local_ymd`, and the outcome of `fopen`/`fread`/`fwrite`/`fclose` is a
  `Transfer`.
* Files are sequences of whole fixed-layout records (`Disk`).  Terminal
  output, `sleep`, and the append-only text log written by `log_message`
  (never read back by the program) are not part of the state.
* `float` arithmetic is IEEE 754 binary32 with round-to-nearest, ties to even
  (`FLT_EVAL_METHOD` 0): a value is a pair of a signed significand and a
  binary exponent, `round24` rounds a positive fraction to 24 significant
  binary digits, and `float_div a b` is `(float)a / b` for two `int`s.  The
  division reports a zero divisor (`float_div` returns `none`), and the
  functions that divide pass that report on.  The exponent range of binary32
  is not enforced: no quotient of two 32-bit `int`s leaves it.
* A delivery of `SIGALRM` is one atomic step: `reminder_handler` runs between
  two operations of the main flow, never inside one.

`today_loop_within_int` below shows that for the records the program itself
creates (at most `MAX_RECORDS` of them, each of 0 to 2000 ml) every
intermediate value of the scan in `calculate_today_stats` fits a 32-bit `int`,
so the exact arithmetic of the embedding and the machine arithmetic agree
there.  `round24_nearest` shows that `round24` returns a nearest 24-digit
value, and `float_div_accuracy` bounds the error of `float_div` for operands
below `2^24`.
-/

namespace WaterReminder

/-! ## Constants (water_reminder.h) -/

abbrev MAX_RECORDS : Nat := 1000

abbrev DEFAULT_REMINDER_INTERVAL : Int := 60

abbrev DEFAULT_DAILY_GOAL : Int := 8

abbrev DEFAULT_CUP_SIZE : Int := 250

/-- Signal number of `SIGALRM` on Linux. -/
abbrev SIGALRM : Int := 14

/-! ## Data structures (water_reminder.h) -/

/-- User configuration, `UserConfig`. -/
structure UserConfig where
  name : String
  reminder_interval : Int
  daily_goal : Int
  cup_size : Int
  sound_enabled : Int
  notification_style : Int
deriving DecidableEq

/-- One intake event, `WaterRecord`. -/
structure WaterRecord where
  timestamp : Int
  amount : Int
  date_str : String
deriving DecidableEq

/-- Runtime state, `AppState`. -/
structure AppState where
  config : UserConfig
  records : Nat → WaterRecord
  record_count : Int
  today_count : Int
  today_amount : Int
  last_reminder : Int
  is_running : Int
  paused : Int

/-- Durable storage: `CONFIG_FILE` and `DATA_FILE`, each absent (`none`) or a
sequence of whole records. -/
structure Disk where
  config_file : Option (List UserConfig)
  data_file : Option (List WaterRecord)
deriving DecidableEq

/-- Outcome the operating system gives one open-and-transfer of a file:
whether `fopen` succeeds, how many records `fread`/`fwrite` reports as
transferred at most, and, for a write, how many records at most have reached
the file when `fclose` returns (the stream is buffered, and the program
discards the result of `fclose`). -/
structure Transfer where
  open_ok : Bool
  count : Nat
  flushed : Nat
deriving DecidableEq

/-- C library readings consumed by one call of `add_water_record`. -/
structure AddEnv where
  /-- Value of `time(NULL)` stored in `record->timestamp` (core.c:272). -/
  t_stamp : Int
  /-- Value of `time(NULL)` read by `get_current_date_str(record->date_str)` (core.c:274). -/
  t_date : Int
  /-- Value of `time(NULL)` read inside `calculate_today_stats` (core.c:279). -/
  t_stats : Int
  /-- Outcome of the write done by `save_records` (core.c:282). -/
  save : Transfer

/-! ## Small C idioms -/

/-- Logical negation `!x` of a C `int`. -/
def c_not (x : Int) : Int := if x = 0 then 1 else 0

/-- Conversion of an `int` to the 64-bit `size_t`. -/
def size_t_of_int (n : Int) : Nat := (n % 2 ^ 64).toNat

/-! ## Utilities (core.c) -/

/-- The function `get_current_date_str`: formats the current local date. -/
def get_current_date_str (local_ymd : Int → String) (now : Int) : String :=
  local_ymd now

/-- The function `is_same_date`: `strcmp(date1, date2) == 0`. -/
def is_same_date (date1 date2 : String) : Int :=
  if date1 = date2 then 1 else 0

/-! ## Configuration management (core.c) -/

/-- The function `set_default_config`. -/
def set_default_config (_config : UserConfig) : UserConfig :=
  { name := "用户"
    reminder_interval := DEFAULT_REMINDER_INTERVAL
    daily_goal := DEFAULT_DAILY_GOAL
    cup_size := DEFAULT_CUP_SIZE
    sound_enabled := 1
    notification_style := 0 }

/-- Answers typed during `setup_user_config`: the name line without its
newline, the three `atoi` results, and the first character of the sound
answer. -/
structure SetupInput where
  name : String
  interval : Int
  goal : Int
  size : Int
  sound : Char

/-- The function `setup_user_config`. -/
def setup_user_config (_config : UserConfig) (inp : SetupInput) : UserConfig :=
  { name := if inp.name.length = 0 then "用户" else inp.name
    reminder_interval :=
      if inp.interval > 0 ∧ inp.interval ≤ 300 then inp.interval else DEFAULT_REMINDER_INTERVAL
    daily_goal := if inp.goal > 0 ∧ inp.goal ≤ 20 then inp.goal else DEFAULT_DAILY_GOAL
    cup_size := if inp.size > 0 ∧ inp.size ≤ 1000 then inp.size else DEFAULT_CUP_SIZE
    sound_enabled := if inp.sound = 'n' ∨ inp.sound = 'N' then 0 else 1
    notification_style := 0 }

/-- The function `load_config`: returns the configuration and the status. -/
def load_config (config : UserConfig) (disk : Disk) (xf : Transfer) : UserConfig × Int :=
  match (if xf.open_ok then disk.config_file else none) with
  | none => (set_default_config config, -1)
  | some file =>
    match (if 1 ≤ xf.count then file.head? else none) with
    | none => (set_default_config config, -1)
    | some c => (c, 0)

/-- The function `save_config`: returns the storage and the status.  The
status is decided by the count `fwrite` reports; what the file holds after
the unchecked `fclose` is the part of it that was flushed. -/
def save_config (config : UserConfig) (disk : Disk) (xf : Transfer) : Disk × Int :=
  if xf.open_ok then
    let write_size := min xf.count 1
    let stored := min xf.flushed write_size
    let disk1 : Disk :=
      { disk with config_file := some ((List.range stored).map (fun _ => config)) }
    if write_size ≠ 1 then (disk1, -1) else (disk1, 0)
  else (disk, -1)

/-! ## Data management (core.c) -/

/-- The function `load_records`: returns the state and the status. -/
def load_records (app : AppState) (disk : Disk) (xf : Transfer) : AppState × Int :=
  match (if xf.open_ok then disk.data_file else none) with
  | none => ({ app with record_count := 0 }, 0)
  | some file =>
    let n := min (min xf.count file.length) MAX_RECORDS
    ({ app with
        records := fun i => if i < n then file.getD i (app.records i) else app.records i
        record_count := (n : Int) }, 0)

/-- The function `save_records`: returns the storage and the status.  The
status is decided by the count `fwrite` reports; what the file holds after
the unchecked `fclose` is the part of it that was flushed. -/
def save_records (app : AppState) (disk : Disk) (xf : Transfer) : Disk × Int :=
  if xf.open_ok then
    let want := size_t_of_int app.record_count
    let write_size := min xf.count want
    let stored := min xf.flushed write_size
    let disk1 : Disk :=
      { disk with data_file := some ((List.range stored).map app.records) }
    if write_size ≠ want then (disk1, -1) else (disk1, 0)
  else (disk, -1)

/-- Loop body of `calculate_today_stats` (core.c:303-306) on the pair
`(today_count, today_amount)`. -/
def today_step (app : AppState) (today : String) (acc : Int × Int) (i : Nat) : Int × Int :=
  if is_same_date (app.records i).date_str today ≠ 0 then
    (acc.1 + 1, acc.2 + (app.records i).amount)
  else acc

/-- The function `calculate_today_stats`; `now` is the value of `time(NULL)`
read by its call of `get_current_date_str`. -/
def calculate_today_stats (local_ymd : Int → String) (app : AppState) (now : Int) : AppState :=
  let today := get_current_date_str local_ymd now
  let acc := (List.range app.record_count.toNat).foldl (today_step app today) (0, 0)
  { app with today_count := acc.1, today_amount := acc.2 }

/-- The function `add_water_record`. -/
def add_water_record (local_ymd : Int → String) (app : AppState) (disk : Disk)
    (amount : Int) (env : AddEnv) : AppState × Disk :=
  if amount ≤ 0 then (app, disk)
  else
    let app1 : AppState :=
      if app.record_count ≥ (MAX_RECORDS : Int) then
        { app with
            records := fun i => if i < MAX_RECORDS - 1 then app.records (i + 1) else app.records i
            record_count := (MAX_RECORDS : Int) - 1 }
      else app
    let record : WaterRecord :=
      { timestamp := env.t_stamp
        amount := amount
        date_str := get_current_date_str local_ymd env.t_date }
    let app2 : AppState :=
      { app1 with
          records := Function.update app1.records app1.record_count.toNat record
          record_count := app1.record_count + 1 }
    let app3 := calculate_today_stats local_ymd app2 env.t_stats
    (app3, (save_records app3 disk env.save).1)

/-! ## Reminder system (core.c) -/

/-- The function `should_remind`; `now` is the value of `time(NULL)` it reads. -/
def should_remind (app : AppState) (now : Int) : Int :=
  if app.paused ≠ 0 then 0
  else
    let interval_seconds := app.config.reminder_interval * 60
    if app.last_reminder = 0 ∨ now - app.last_reminder ≥ interval_seconds then 1 else 0

/-- The function `reminder_handler` on the global state.  `t_check` is the
clock value read by `should_remind`, `t_set` the one read after the
notification was shown.  The boolean tells whether
`show_reminder_notification` was called. -/
def reminder_handler (app : AppState) (sig : Int) (t_check t_set : Int) : AppState × Bool :=
  if sig = SIGALRM then
    if should_remind app t_check ≠ 0 then ({ app with last_reminder := t_set }, true)
    else (app, false)
  else (app, false)

/-! ## Menu handlers (main.c) -/

/-- The function `handle_add_water`: `choice` is the menu choice, `custom` the
amount read by `scanf` for choice 4. -/
def handle_add_water (local_ymd : Int → String) (app : AppState) (disk : Disk)
    (choice custom : Int) (env : AddEnv) : AppState × Disk :=
  if choice = 1 then add_water_record local_ymd app disk 150 env
  else if choice = 2 then add_water_record local_ymd app disk 250 env
  else if choice = 3 then add_water_record local_ymd app disk 350 env
  else if choice = 4 then
    if custom ≤ 0 ∨ custom > 2000 then (app, disk)
    else add_water_record local_ymd app disk custom env
  else (app, disk)

/-- Input of one pass through the `handle_settings` loop: the menu choice,
the result of `scanf("%d", &field)` for choices 1 to 3 (`none` when nothing
was converted, which leaves the field as it was), the answers for choice 5,
and the outcome of the `save_config` write. -/
structure SettingsEvent where
  choice : Int
  value : Option Int
  setup : SetupInput
  save : Transfer

/-- One pass of the `switch` in `handle_settings` for a choice other than 0. -/
def settings_case (app : AppState) (disk : Disk) (ev : SettingsEvent) : AppState × Disk :=
  if ev.choice = 1 then
    let v := ev.value.getD app.config.reminder_interval
    if v < 5 ∨ v > 300 then
      ({ app with config := { app.config with reminder_interval := DEFAULT_REMINDER_INTERVAL } }, disk)
    else
      let app1 : AppState := { app with config := { app.config with reminder_interval := v } }
      (app1, (save_config app1.config disk ev.save).1)
  else if ev.choice = 2 then
    let v := ev.value.getD app.config.daily_goal
    if v < 1 ∨ v > 20 then
      ({ app with config := { app.config with daily_goal := DEFAULT_DAILY_GOAL } }, disk)
    else
      let app1 : AppState := { app with config := { app.config with daily_goal := v } }
      (app1, (save_config app1.config disk ev.save).1)
  else if ev.choice = 3 then
    let v := ev.value.getD app.config.cup_size
    if v < 50 ∨ v > 1000 then
      ({ app with config := { app.config with cup_size := DEFAULT_CUP_SIZE } }, disk)
    else
      let app1 : AppState := { app with config := { app.config with cup_size := v } }
      (app1, (save_config app1.config disk ev.save).1)
  else if ev.choice = 4 then
    let app1 : AppState :=
      { app with config := { app.config with sound_enabled := c_not app.config.sound_enabled } }
    (app1, (save_config app1.config disk ev.save).1)
  else if ev.choice = 5 then
    let app1 : AppState := { app with config := setup_user_config app.config ev.setup }
    (app1, (save_config app1.config disk ev.save).1)
  else (app, disk)

/-- The function `handle_settings`, run on the passes the user makes; it
returns at the first choice 0 (or holds the state reached when the input
ends). -/
def handle_settings (app : AppState) (disk : Disk) : List SettingsEvent → AppState × Disk
  | [] => (app, disk)
  | ev :: rest =>
    if ev.choice = 0 then (app, disk)
    else handle_settings (settings_case app disk ev).1 (settings_case app disk ev).2 rest

/-- Inputs the sub-menus of one `main_loop` pass may consume. -/
structure MenuInput where
  add_choice : Int
  add_custom : Int
  add_env : AddEnv
  settings : List SettingsEvent

/-- One pass of the `switch` in `main_loop` for the main-menu `choice`. -/
def main_loop_case (local_ymd : Int → String) (app : AppState) (disk : Disk)
    (choice : Int) (inp : MenuInput) : AppState × Disk :=
  if choice = 1 then handle_add_water local_ymd app disk inp.add_choice inp.add_custom inp.add_env
  else if choice = 2 then (app, disk)
  else if choice = 3 then handle_settings app disk inp.settings
  else if choice = 4 then ({ app with paused := c_not app.paused }, disk)
  else if choice = 0 then ({ app with is_running := 0 }, disk)
  else (app, disk)

/-! ## Statistics (ui.c) -/

/-- Number of binary digits of `n`, found by halving at most `fuel` times. -/
def bit_length_aux : Nat → Nat → Nat
  | 0, _ => 0
  | fuel + 1, n => if n = 0 then 0 else bit_length_aux fuel (n / 2) + 1

/-- Number of binary digits of `n`. -/
def bit_length (n : Nat) : Nat := bit_length_aux n n

/-- Rounding of the positive fraction `n / d` to 24 significant binary digits,
to nearest with ties to even: the pair `(m, e)` stands for `m * 2 ^ e`, where
`2 ^ 23 <= m <= 2 ^ 24`. -/
def round24 (n d : Nat) : Nat × Int :=
  let k : Int := (bit_length n : Int) - (bit_length d : Int)
  let e : Int := if d * 2 ^ k.toNat ≤ n * 2 ^ (-k).toNat then k else k - 1
  let s : Int := 23 - e
  let p : Nat := n * 2 ^ s.toNat
  let q : Nat := d * 2 ^ (-s).toNat
  let m0 : Nat := p / q
  let r : Nat := p % q
  let m : Nat :=
    if 2 * r < q then m0 else if q < 2 * r then m0 + 1 else if m0 % 2 = 0 then m0 else m0 + 1
  (m, e - 23)

/-- The conversion `(float)a` of an `int`: signed significand and exponent. -/
def f32_of_int (a : Int) : Int × Int :=
  if a = 0 then (0, 0)
  else (Int.sign a * ((round24 a.natAbs 1).1 : Int), (round24 a.natAbs 1).2)

/-- The binary32 quotient `x / y` of two values, for `y` other than zero. -/
def f32_div (x y : Int × Int) : Int × Int :=
  if x.1 = 0 then (0, 0)
  else
    let n := x.1.natAbs * 2 ^ (x.2 - y.2).toNat
    let d := y.1.natAbs * 2 ^ (y.2 - x.2).toNat
    (Int.sign x.1 * Int.sign y.1 * ((round24 n d).1 : Int), (round24 n d).2)

/-- The binary32 product `x * y` of two values. -/
def f32_mul (x y : Int × Int) : Int × Int :=
  if x.1 = 0 ∨ y.1 = 0 then (0, 0)
  else
    let n := x.1.natAbs * y.1.natAbs * 2 ^ (x.2 + y.2).toNat
    let d := 2 ^ (-(x.2 + y.2)).toNat
    (Int.sign x.1 * Int.sign y.1 * ((round24 n d).1 : Int), (round24 n d).2)

/-- The rational number a binary32 value stands for. -/
def f32_value (x : Int × Int) : ℚ := (x.1 : ℚ) * (2 : ℚ) ^ x.2

/-- The binary32 value of `(float)a / b` for two `int`s, `b` other than zero. -/
def float_quot (a b : Int) : Int × Int :=
  f32_div (f32_of_int a) (f32_of_int b)

/-- The quotient `(float)a / b` of two `int`s: the rational number the
binary32 result stands for, and `none` when the divisor is zero. -/
def float_div (a b : Int) : Option ℚ :=
  if b = 0 then none else some (f32_value (float_quot a b))

/-- The date string of `now - (day * 24 * 60 * 60)` computed by the
statistics loops with `localtime` and `strftime`.  The product is an `int`
product in C, defined for `day <= 24855`; the loops of `show_weekly_stats`,
`show_monthly_stats` and `get_streak_days` stay below 365. -/
def target_date_str (local_ymd : Int → String) (now day : Int) : String :=
  local_ymd (now - day * 24 * 60 * 60)

/-- Body of the inner scans of ui.c: adds the amount of record `i` when its
date is `date_str`. -/
def daily_step (app : AppState) (date_str : String) (daily_amount : Int) (i : Nat) : Int :=
  if is_same_date (app.records i).date_str date_str ≠ 0 then
    daily_amount + (app.records i).amount
  else daily_amount

/-- The inner scan `for (i = 0; i < record_count; i++)` of the statistics
functions: the amount recorded on `date_str`. -/
def daily_amount_scan (app : AppState) (date_str : String) : Int :=
  (List.range app.record_count.toNat).foldl (daily_step app date_str) 0

/-- Body of the day loop of `calculate_daily_average` on the pair
`(total_amount, valid_days)`. -/
def average_step (local_ymd : Int → String) (app : AppState) (now : Int)
    (acc : Int × Int) (day : Nat) : Int × Int :=
  let daily_amount := daily_amount_scan app (target_date_str local_ymd now (day : Int))
  if daily_amount > 0 then (acc.1 + daily_amount, acc.2 + 1) else acc

/-- The function `calculate_daily_average`; `now` is the value of
`time(NULL)` it reads.  The result is `none` when a division by zero is
executed. -/
def calculate_daily_average (local_ymd : Int → String) (app : AppState) (days : Int)
    (now : Int) : Option ℚ :=
  if days ≤ 0 then some 0
  else
    let acc := (List.range days.toNat).foldl (average_step local_ymd app now) (0, 0)
    if acc.2 > 0 then float_div acc.1 acc.2 else some 0

/-- Day loop of `get_streak_days`: `n` passes remain, `day` is the loop
variable and `streak` the running count; the `else` branch is the `break`. -/
def streak_loop (local_ymd : Int → String) (app : AppState) (now goal_ml : Int) :
    Nat → Int → Int → Int
  | 0, _, streak => streak
  | n + 1, day, streak =>
    if daily_amount_scan app (target_date_str local_ymd now day) ≥ goal_ml then
      streak_loop local_ymd app now goal_ml n (day + 1) (streak + 1)
    else streak

/-- The function `get_streak_days`; `now` is the value of `time(NULL)` it
reads. -/
def get_streak_days (local_ymd : Int → String) (app : AppState) (now : Int) : Int :=
  let goal_ml := app.config.daily_goal * app.config.cup_size
  streak_loop local_ymd app now goal_ml 365 0 0

/-- What `show_weekly_stats` computes and prints: the amount of each day
(oldest first), the two accumulators, and the average of the summary
(`none` in the "no records this week" branch). -/
structure WeeklyStats where
  daily : List (String × Int)
  weekly_total : Int
  weekly_days : Int
  daily_avg : Option ℚ

/-- Body of the day loop of `show_weekly_stats` on
`(lines printed, weekly_total, weekly_days)`. -/
def weekly_step (local_ymd : Int → String) (app : AppState) (now : Int)
    (acc : List (String × Int) × Int × Int) (day : Nat) : List (String × Int) × Int × Int :=
  let date_str := target_date_str local_ymd now (day : Int)
  let daily_amount := daily_amount_scan app date_str
  if daily_amount > 0 then
    (acc.1 ++ [(date_str, daily_amount)], acc.2.1 + daily_amount, acc.2.2 + 1)
  else (acc.1 ++ [(date_str, daily_amount)], acc.2.1, acc.2.2)

/-- The function `show_weekly_stats`: the day loop runs from 6 down to 0.
The result is `none` when a division by zero is executed. -/
def show_weekly_stats (local_ymd : Int → String) (app : AppState) (now : Int) :
    Option WeeklyStats :=
  let acc := (List.range 7).reverse.foldl (weekly_step local_ymd app now) ([], 0, 0)
  if acc.2.2 > 0 then
    (float_div acc.2.1 acc.2.2).map (fun avg =>
      { daily := acc.1, weekly_total := acc.2.1, weekly_days := acc.2.2, daily_avg := some avg })
  else
    some { daily := acc.1, weekly_total := acc.2.1, weekly_days := acc.2.2, daily_avg := none }

/-- Accumulators of the day loop of `show_monthly_stats`. -/
structure MonthlyAcc where
  monthly_total : Int
  monthly_days : Int
  best_day : Int
  goal_achieved_days : Int

/-- What `show_monthly_stats` computes and prints: the accumulators, and the
average and goal rate of the summary (`none` in the "no records" branch). -/
structure MonthlyStats where
  acc : MonthlyAcc
  daily_avg : Option ℚ
  goal_rate : Option ℚ

/-- Body of the day loop of `show_monthly_stats`. -/
def monthly_step (local_ymd : Int → String) (app : AppState) (now : Int)
    (acc : MonthlyAcc) (day : Nat) : MonthlyAcc :=
  let daily_amount := daily_amount_scan app (target_date_str local_ymd now (day : Int))
  if daily_amount > 0 then
    let goal_ml := app.config.daily_goal * app.config.cup_size
    { monthly_total := acc.monthly_total + daily_amount
      monthly_days := acc.monthly_days + 1
      best_day := if daily_amount > acc.best_day then daily_amount else acc.best_day
      goal_achieved_days :=
        if daily_amount ≥ goal_ml then acc.goal_achieved_days + 1 else acc.goal_achieved_days }
  else acc

/-- The function `show_monthly_stats`: the day loop runs from 29 down to 0.
The result is `none` when a division by zero is executed. -/
def show_monthly_stats (local_ymd : Int → String) (app : AppState) (now : Int) :
    Option MonthlyStats :=
  let acc := (List.range 30).reverse.foldl (monthly_step local_ymd app now)
    { monthly_total := 0, monthly_days := 0, best_day := 0, goal_achieved_days := 0 }
  if acc.monthly_days > 0 then
    (float_div acc.monthly_total acc.monthly_days).map (fun avg =>
      { acc := acc, daily_avg := some avg,
        goal_rate := some (f32_value
          (f32_mul (float_quot acc.goal_achieved_days acc.monthly_days) (f32_of_int 100))) })
  else some { acc := acc, daily_avg := none, goal_rate := none }

/-! ## Runs of operations -/

/-- The function `add_water_record` called once per entry of `xs`, in order. -/
def add_all (local_ymd : Int → String) (app : AppState) (disk : Disk) :
    List (Int × AddEnv) → AppState × Disk
  | [] => (app, disk)
  | x :: rest =>
    add_all local_ymd (add_water_record local_ymd app disk x.1 x.2).1
      (add_water_record local_ymd app disk x.1 x.2).2 rest

/-- A record-store operation together with the library readings it consumes. -/
inductive StoreOp where
  | add (amount : Int) (env : AddEnv)
  | load (xf : Transfer)

/-- Effect of one record-store operation. -/
def store_step (local_ymd : Int → String) (w : AppState × Disk) : StoreOp → AppState × Disk
  | StoreOp.add amount env => add_water_record local_ymd w.1 w.2 amount env
  | StoreOp.load xf => ((load_records w.1 w.2 xf).1, w.2)

/-- Effect of a sequence of record-store operations. -/
def store_run (local_ymd : Int → String) (w : AppState × Disk) (ops : List StoreOp) :
    AppState × Disk :=
  ops.foldl (store_step local_ymd) w

/-- A sequence of `SIGALRM` deliveries, each with its two clock readings;
returns the final state and the number of notifications shown. -/
def run_ticks (app : AppState) : List (Int × Int) → AppState × Nat
  | [] => (app, 0)
  | t :: rest =>
    let r := reminder_handler app SIGALRM t.1 t.2
    let q := run_ticks r.1 rest
    (q.1, (if r.2 then 1 else 0) + q.2)

/-! ## Specification-side notions -/

/-- The record sequence: the first `record_count` slots, in index order. -/
def live (app : AppState) : List WaterRecord :=
  (List.range app.record_count.toNat).map app.records

/-- Number of the records of `rs` whose date key is `today`. -/
def spec_today_count (today : String) (rs : List WaterRecord) : Int :=
  ((rs.filter (fun r => decide (r.date_str = today))).length : Int)

/-- Sum of the amounts of the records of `rs` whose date key is `today`. -/
def spec_today_amount (today : String) (rs : List WaterRecord) : Int :=
  ((rs.filter (fun r => decide (r.date_str = today))).map WaterRecord.amount).sum

/-- The record count lies within the array. -/
def count_in_range (app : AppState) : Prop :=
  0 ≤ app.record_count ∧ app.record_count ≤ (MAX_RECORDS : Int)

/-- The cached today totals agree with the record sequence for date `today`. -/
def today_consistent (today : String) (app : AppState) : Prop :=
  app.today_count = spec_today_count today (live app) ∧
    app.today_amount = spec_today_amount today (live app)

/-- Total recorded on day `d` of a window ending at `now`: the sum of the
amounts of the records whose date is the local date of `now - d * 86400`. -/
def day_total (local_ymd : Int → String) (app : AppState) (now : Int) (d : Int) : Int :=
  spec_today_amount (local_ymd (now - d * 86400)) (live app)

/-- The days `d` in `[0, days)` of the window whose total is positive. -/
def qualifying_days (local_ymd : Int → String) (app : AppState) (now : Int) (days : Int) :
    List Nat :=
  (List.range days.toNat).filter (fun (d : Nat) => decide (0 < day_total local_ymd app now (d : Int)))

/-- The average the specification gives for a window: the sum of the totals
of the qualifying days over their number, and 0 when there is none. -/
def spec_daily_average (local_ymd : Int → String) (app : AppState) (now : Int) (days : Int) :
    ℚ :=
  if (qualifying_days local_ymd app now days).length = 0 then 0
  else
    ((((qualifying_days local_ymd app now days).map
        (fun (d : Nat) => day_total local_ymd app now (d : Int))).sum : Int) : ℚ) /
      (((qualifying_days local_ymd app now days).length : Nat) : ℚ)

/-! ## Concrete inputs -/

/-- A two-day calendar used for concrete runs. -/
def demo_ymd (t : Int) : String :=
  if t < 86400 then "1970-01-01" else "1970-01-02"

/-- A configuration with the default parameters. -/
def demo_config : UserConfig :=
  { name := "demo", reminder_interval := 60, daily_goal := 8, cup_size := 250,
    sound_enabled := 1, notification_style := 0 }

/-- A store at capacity: slot `i` holds a 100 ml record stamped `i`, dated
before the demo calendar. -/
def demo_full : AppState :=
  { config := demo_config
    records := fun i => { timestamp := (i : Int), amount := 100, date_str := "1969-12-31" }
    record_count := 1000
    today_count := 0
    today_amount := 0
    last_reminder := 0
    is_running := 1
    paused := 0 }

/-- An empty store. -/
def demo_empty : AppState := { demo_full with record_count := 0 }

/-- A store holding two records of the first demo day, with matching totals. -/
def demo_two : AppState :=
  { demo_full with
      records := fun i => { timestamp := (i : Int), amount := 200, date_str := "1970-01-01" }
      record_count := 2
      today_count := 2
      today_amount := 400 }

/-- A paused state that was last reminded at time 5000. -/
def demo_paused : AppState := { demo_empty with paused := 1, last_reminder := 5000 }

/-- Storage with neither file present. -/
def demo_disk : Disk := { config_file := none, data_file := none }

/-- A transfer that succeeds fully. -/
def xfer_ok : Transfer := { open_ok := true, count := 2000, flushed := 2000 }

/-- A write that `fwrite` accepts in full but whose buffer is not flushed by
`fclose` (for instance on a full disk). -/
def xfer_unflushed : Transfer := { open_ok := true, count := 2000, flushed := 0 }

/-- Library readings of an append made at time `t`. -/
def env_at (t : Int) : AddEnv := { t_stamp := t, t_date := t, t_stats := t, save := xfer_ok }

/-- A store with one record of the first demo day and one of the day before. -/
def demo_mixed : AppState :=
  { demo_full with
      records := fun i =>
        if i = 0 then { timestamp := 50, amount := 200, date_str := "1970-01-01" }
        else { timestamp := -50, amount := 300, date_str := "1969-12-31" }
      record_count := 2 }

/-- The store `demo_mixed` with its two records exchanged. -/
def demo_mixed_swapped : AppState :=
  { demo_full with
      records := fun i =>
        if i = 0 then { timestamp := -50, amount := 300, date_str := "1969-12-31" }
        else { timestamp := 50, amount := 200, date_str := "1970-01-01" }
      record_count := 2 }

/-- Nine appends on the first demo day, at times 0, 100, ..., 800. -/
def demo_nine : List AddEnv :=
  [env_at 0, env_at 100, env_at 200, env_at 300, env_at 400, env_at 500, env_at 600,
    env_at 700, env_at 800]

/-- The 1440 ticks of 24 hours, spaced 60 s apart, starting at time 6000. -/
def demo_day_ticks : List (Int × Int) :=
  (List.range 1440).map (fun (k : Nat) => (6000 + 60 * (k : Int), 6000 + 60 * (k : Int)))

/-- Settings input: choice 1 with the value 30 entered. -/
def demo_interval_event : SettingsEvent :=
  { choice := 1, value := some 30,
    setup := { name := "", interval := 0, goal := 0, size := 0, sound := 'y' },
    save := xfer_ok }

/-- Menu input whose sub-menus add nothing and change no setting. -/
def demo_menu : MenuInput :=
  { add_choice := 0, add_custom := 0, add_env := env_at 0, settings := [] }

/-- A three-day calendar used for concrete runs of the statistics. -/
def demo_ymd3 (t : Int) : String :=
  if t < 0 then "1969-12-31" else if t < 86400 then "1970-01-01" else "1970-01-02"

/-- A store whose goal of 2000 ml was met on 1970-01-01 (one record) and on
1970-01-02 (two records), and on no other day. -/
def demo_streak : AppState :=
  { demo_full with
      records := fun i =>
        if i = 0 then { timestamp := 3600, amount := 2000, date_str := "1970-01-01" }
        else if i = 1 then { timestamp := 88000, amount := 1200, date_str := "1970-01-02" }
        else { timestamp := 89000, amount := 900, date_str := "1970-01-02" }
      record_count := 3 }

/-- The store `demo_streak` before its last record: 1970-01-01 met the goal,
1970-01-02 holds 1200 ml only. -/
def demo_behind : AppState := { demo_streak with record_count := 2 }

/-- First-run answers: name "ann", interval 3, goal 8, cup size 30, sound on. -/
def demo_setup : SetupInput :=
  { name := "ann", interval := 3, goal := 8, size := 30, sound := 'y' }

/-- Settings input: choice 1 with the value 3 entered. -/
def demo_short_interval_event : SettingsEvent :=
  { choice := 1, value := some 3, setup := demo_setup, save := xfer_ok }

/-- Settings input: choice 3 with the value 30 entered. -/
def demo_cup_event : SettingsEvent :=
  { choice := 3, value := some 30, setup := demo_setup, save := xfer_ok }

/-- Date key of day number `n`, one key per day. -/
def day_key (n : Int) : String :=
  String.mk (List.replicate (Equiv.intEquivNat n) 'd')

/-- A fixed-offset local calendar: the date of `t` is the key of the day
number `floor((t + off) / 86400)`. -/
def fixed_offset_ymd (off : Int) (t : Int) : String :=
  day_key ((t + off) / 86400)

/-- A store at capacity whose records are all 500 ml records of the first
demo day. -/
def demo_cap_base : AppState :=
  { demo_full with
      records := fun i => { timestamp := (i : Int), amount := 500, date_str := "1970-01-01" } }

/-- The store `demo_cap_base` with the today totals computed at time 100. -/
def demo_cap : AppState := calculate_today_stats demo_ymd demo_cap_base 100

/-- A store with 400 ml on 1970-01-02, 300 ml on 1970-01-01 and 300 ml on
1969-12-31. -/
def demo_thirds : AppState :=
  { demo_full with
      records := fun i =>
        if i = 0 then { timestamp := -3600, amount := 300, date_str := "1969-12-31" }
        else if i = 1 then { timestamp := 3600, amount := 300, date_str := "1970-01-01" }
        else { timestamp := 88000, amount := 400, date_str := "1970-01-02" }
      record_count := 3 }

/-! ## Auxiliary lemmas -/

theorem today_fold_eq (app : AppState) (today : String) (l : List Nat) (acc : Int × Int) :
    l.foldl (today_step app today) acc =
      (acc.1 + spec_today_count today (l.map app.records),
        acc.2 + spec_today_amount today (l.map app.records)) := by
  induction l generalizing acc with
  | nil => simp [spec_today_count, spec_today_amount]
  | cons i l ih =>
    rw [List.foldl_cons, ih]
    by_cases h : (app.records i).date_str = today
    · simp [today_step, is_same_date, h, spec_today_count, spec_today_amount, List.filter_cons]
      constructor <;> ring
    · simp [today_step, is_same_date, h, spec_today_count, spec_today_amount, List.filter_cons]

theorem calculate_today_stats_count (local_ymd : Int → String) (app : AppState) (now : Int) :
    (calculate_today_stats local_ymd app now).today_count =
      spec_today_count (local_ymd now) (live app) := by
  simp [calculate_today_stats, get_current_date_str, today_fold_eq, live]

theorem calculate_today_stats_amount (local_ymd : Int → String) (app : AppState) (now : Int) :
    (calculate_today_stats local_ymd app now).today_amount =
      spec_today_amount (local_ymd now) (live app) := by
  simp [calculate_today_stats, get_current_date_str, today_fold_eq, live]

theorem calculate_today_stats_live (local_ymd : Int → String) (app : AppState) (now : Int) :
    live (calculate_today_stats local_ymd app now) = live app := rfl

/-- The record written by an append. -/
theorem add_record_count_below (local_ymd : Int → String) (app : AppState) (disk : Disk)
    (amount : Int) (env : AddEnv) (ha : 0 < amount) (hlt : app.record_count < 1000) :
    (add_water_record local_ymd app disk amount env).1.record_count = app.record_count + 1 ∧
      (add_water_record local_ymd app disk amount env).1.records =
        Function.update app.records app.record_count.toNat
          { timestamp := env.t_stamp, amount := amount, date_str := local_ymd env.t_date } := by
  have h1 : ¬ amount ≤ 0 := by omega
  have h2 : ¬ (1000 : Int) ≤ app.record_count := by omega
  simp [add_water_record, h1, h2, calculate_today_stats, get_current_date_str]

theorem add_record_count_full (local_ymd : Int → String) (app : AppState) (disk : Disk)
    (amount : Int) (env : AddEnv) (ha : 0 < amount) (hge : 1000 ≤ app.record_count) :
    (add_water_record local_ymd app disk amount env).1.record_count = 1000 ∧
      (add_water_record local_ymd app disk amount env).1.records =
        Function.update (fun i => if i < 999 then app.records (i + 1) else app.records i) 999
          { timestamp := env.t_stamp, amount := amount, date_str := local_ymd env.t_date } := by
  have h1 : ¬ amount ≤ 0 := by omega
  simp [add_water_record, h1, hge, calculate_today_stats, get_current_date_str]

theorem add_today_count (local_ymd : Int → String) (app : AppState) (disk : Disk)
    (amount : Int) (env : AddEnv) (ha : 0 < amount) :
    (add_water_record local_ymd app disk amount env).1.today_count =
      spec_today_count (local_ymd env.t_stats)
        (live (add_water_record local_ymd app disk amount env).1) := by
  have h1 : ¬ amount ≤ 0 := by omega
  simp only [add_water_record, h1, if_false]
  rw [calculate_today_stats_count, calculate_today_stats_live]

theorem add_today_amount (local_ymd : Int → String) (app : AppState) (disk : Disk)
    (amount : Int) (env : AddEnv) (ha : 0 < amount) :
    (add_water_record local_ymd app disk amount env).1.today_amount =
      spec_today_amount (local_ymd env.t_stats)
        (live (add_water_record local_ymd app disk amount env).1) := by
  have h1 : ¬ amount ≤ 0 := by omega
  simp only [add_water_record, h1, if_false]
  rw [calculate_today_stats_amount, calculate_today_stats_live]

theorem range_map_update_self (f : Nat → WaterRecord) (n : Nat) (r : WaterRecord) :
    (List.range n).map (Function.update f n r) = (List.range n).map f := by
  apply List.map_congr_left
  intro i hi
  have : i ≠ n := by
    have := List.mem_range.mp hi
    omega
  simp [Function.update, this]

theorem live_add_below (local_ymd : Int → String) (app : AppState) (disk : Disk)
    (amount : Int) (env : AddEnv) (ha : 0 < amount) (h0 : 0 ≤ app.record_count)
    (hlt : app.record_count < 1000) :
    live (add_water_record local_ymd app disk amount env).1 =
      live app ++ [{ timestamp := env.t_stamp, amount := amount,
                     date_str := local_ymd env.t_date }] := by
  obtain ⟨hc, hr⟩ := add_record_count_below local_ymd app disk amount env ha hlt
  unfold live
  rw [hc, hr]
  have : (app.record_count + 1).toNat = app.record_count.toNat + 1 := by omega
  rw [this, List.range_succ, List.map_append, range_map_update_self]
  simp

theorem live_add_full (local_ymd : Int → String) (app : AppState) (disk : Disk)
    (amount : Int) (env : AddEnv) (ha : 0 < amount) (hfull : app.record_count = 1000) :
    live (add_water_record local_ymd app disk amount env).1 =
      (live app).tail ++ [{ timestamp := env.t_stamp, amount := amount,
                            date_str := local_ymd env.t_date }] := by
  obtain ⟨hc, hr⟩ := add_record_count_full local_ymd app disk amount env ha (by omega)
  have e1 : (1000 : Int).toNat = 999 + 1 := by decide
  have e2 : live app =
      app.records 0 :: (List.range 999).map (fun i => app.records (i + 1)) := by
    unfold live
    rw [hfull, e1, List.range_succ_eq_map]
    simp [List.map_map, Function.comp_def]
  rw [e2]
  unfold live
  rw [hc, hr, e1, List.range_succ, List.map_append, range_map_update_self]
  simp only [List.tail_cons, List.map_cons, List.map_nil, Function.update_same]
  have e3 : (List.range 999).map (fun i => if i < 999 then app.records (i + 1) else app.records i)
      = (List.range 999).map (fun i => app.records (i + 1)) := by
    refine List.map_congr_left (fun i hi => ?_)
    have := List.mem_range.mp hi
    simp [this]
  rw [e3]

theorem live_getElem? (app : AppState) (i : Nat) (hi : i < app.record_count.toNat) :
    (live app)[i]? = some (app.records i) := by
  simp [live, List.getElem?_map, List.getElem?_range hi]

theorem live_length (app : AppState) : (live app).length = app.record_count.toNat := by
  simp [live]

theorem add_all_live (local_ymd : Int → String) (xs : List (Int × AddEnv)) :
    ∀ (app : AppState) (disk : Disk), 0 ≤ app.record_count →
      app.record_count + xs.length ≤ 1000 → (∀ x ∈ xs, 0 < x.1) →
      (add_all local_ymd app disk xs).1.record_count = app.record_count + xs.length ∧
        live (add_all local_ymd app disk xs).1 =
          live app ++ xs.map (fun x => { timestamp := x.2.t_stamp, amount := x.1,
                                         date_str := local_ymd x.2.t_date }) := by
  induction xs with
  | nil => intro app disk _ _ _; simp [add_all]
  | cons x rest ih =>
    intro app disk h0 hlen hpos
    have hx : 0 < x.1 := hpos x (List.mem_cons_self _ _)
    have hl : (((x :: rest).length : Nat) : Int) = (rest.length : Int) + 1 := by simp
    rw [hl] at hlen
    have hlt : app.record_count < 1000 := by omega
    obtain ⟨hc, _⟩ := add_record_count_below local_ymd app disk x.1 x.2 hx hlt
    have hlive := live_add_below local_ymd app disk x.1 x.2 hx h0 hlt
    obtain ⟨ihc, ihl⟩ := ih (add_water_record local_ymd app disk x.1 x.2).1
      (add_water_record local_ymd app disk x.1 x.2).2 (by omega) (by omega)
      (fun y hy => hpos y (List.mem_cons_of_mem _ hy))
    simp only [add_all]
    refine ⟨?_, ?_⟩
    · rw [ihc, hc, hl]; ring
    · rw [ihl, hlive]; simp

theorem add_in_range (local_ymd : Int → String) (app : AppState) (disk : Disk)
    (amount : Int) (env : AddEnv) (h : count_in_range app) :
    count_in_range (add_water_record local_ymd app disk amount env).1 := by
  obtain ⟨h0, h1⟩ := h
  have h1' : app.record_count ≤ 1000 := by simpa using h1
  show 0 ≤ _ ∧ _ ≤ (1000 : Int)
  by_cases ha : amount ≤ 0
  · simp only [add_water_record, ha, if_true]
    exact ⟨h0, h1'⟩
  · have hpos : 0 < amount := by omega
    by_cases hlt : app.record_count < 1000
    · rw [(add_record_count_below local_ymd app disk amount env hpos hlt).1]
      omega
    · rw [(add_record_count_full local_ymd app disk amount env hpos (by omega)).1]
      omega

theorem load_in_range (app : AppState) (disk : Disk) (xf : Transfer) :
    count_in_range (load_records app disk xf).1 := by
  unfold count_in_range load_records
  split
  · simp
  · simp only [Int.natCast_nonneg, true_and]
    exact_mod_cast Nat.min_le_right _ _

theorem store_run_in_range (local_ymd : Int → String) (ops : List StoreOp) :
    ∀ w : AppState × Disk, count_in_range w.1 →
      count_in_range (store_run local_ymd w ops).1 := by
  induction ops with
  | nil => intro w h; simpa [store_run] using h
  | cons op rest ih =>
    intro w h
    have hstep : count_in_range (store_step local_ymd w op).1 := by
      cases op with
      | add amount env => exact add_in_range local_ymd w.1 w.2 amount env h
      | load xf => exact load_in_range w.1 w.2 xf
    have := ih (store_step local_ymd w op) hstep
    simpa [store_run] using this

theorem spec_today_amount_append (d : String) (l1 l2 : List WaterRecord) :
    spec_today_amount d (l1 ++ l2) = spec_today_amount d l1 + spec_today_amount d l2 := by
  simp [spec_today_amount, List.filter_append, List.map_append, List.sum_append]

theorem spec_today_count_append (d : String) (l1 l2 : List WaterRecord) :
    spec_today_count d (l1 ++ l2) = spec_today_count d l1 + spec_today_count d l2 := by
  simp [spec_today_count, List.filter_append]

theorem spec_today_none (d : String) (l : List WaterRecord) (h : ∀ r ∈ l, r.date_str ≠ d) :
    spec_today_count d l = 0 ∧ spec_today_amount d l = 0 := by
  have : l.filter (fun r => decide (r.date_str = d)) = [] := by
    rw [List.filter_eq_nil_iff]
    intro r hr
    simpa using h r hr
  simp [spec_today_count, spec_today_amount, this]

theorem spec_today_all (d : String) (l : List WaterRecord) (h : ∀ r ∈ l, r.date_str = d) :
    spec_today_count d l = (l.length : Int) ∧
      spec_today_amount d l = (l.map WaterRecord.amount).sum := by
  have : l.filter (fun r => decide (r.date_str = d)) = l := by
    rw [List.filter_eq_self]
    intro r hr
    simpa using h r hr
  simp [spec_today_count, spec_today_amount, this]

theorem add_all_split (local_ymd : Int → String) (xs : List (Int × AddEnv)) :
    ∀ (app : AppState) (disk : Disk) (olds news : List WaterRecord),
      count_in_range app → live app = olds ++ news → news.length + xs.length ≤ 1000 →
      (∀ x ∈ xs, 0 < x.1) →
      ∃ olds2 : List WaterRecord, (∀ r ∈ olds2, r ∈ olds) ∧
        live (add_all local_ymd app disk xs).1 =
          olds2 ++ (news ++ xs.map (fun x => { timestamp := x.2.t_stamp, amount := x.1,
                                               date_str := local_ymd x.2.t_date })) := by
  induction xs with
  | nil =>
    intro app disk olds news _ hl _ _
    exact ⟨olds, fun r hr => hr, by simpa [add_all] using hl⟩
  | cons x rest ih =>
    intro app disk olds news hr hl hlen hpos
    have hx : 0 < x.1 := hpos x (List.mem_cons_self _ _)
    have hrest : ∀ y ∈ rest, 0 < y.1 := fun y hy => hpos y (List.mem_cons_of_mem _ hy)
    have hr2 := add_in_range local_ymd app disk x.1 x.2 hr
    obtain ⟨h0, h1⟩ := hr
    have h1' : app.record_count ≤ 1000 := by simpa using h1
    simp only [List.length_cons] at hlen
    simp only [add_all]
    by_cases hlt : app.record_count < 1000
    · have hlive := live_add_below local_ymd app disk x.1 x.2 hx h0 hlt
      rw [hl, List.append_assoc] at hlive
      obtain ⟨olds2, hsub, heq⟩ := ih _ (add_water_record local_ymd app disk x.1 x.2).2
        olds _ hr2 hlive (by simp; omega) hrest
      exact ⟨olds2, hsub, by simpa using heq⟩
    · have hfull : app.record_count = 1000 := by omega
      have hlive := live_add_full local_ymd app disk x.1 x.2 hx hfull
      have hlen2 : (olds ++ news).length = 1000 := by
        rw [← hl, live_length, hfull]; decide
      cases olds with
      | nil =>
        simp only [List.nil_append] at hlen2
        omega
      | cons o olds_t =>
        rw [hl, List.cons_append, List.tail_cons, List.append_assoc] at hlive
        obtain ⟨olds2, hsub, heq⟩ := ih _ (add_water_record local_ymd app disk x.1 x.2).2
          olds_t _ hr2 hlive (by simp; omega) hrest
        exact ⟨olds2, fun r hr => List.mem_cons_of_mem _ (hsub r hr), by simpa using heq⟩

theorem add_all_today (local_ymd : Int → String) (d : String) (xs : List (Int × AddEnv)) :
    ∀ (app : AppState) (disk : Disk), xs ≠ [] →
      (∀ x ∈ xs, 0 < x.1 ∧ local_ymd x.2.t_stats = d) →
      (add_all local_ymd app disk xs).1.today_count =
          spec_today_count d (live (add_all local_ymd app disk xs).1) ∧
        (add_all local_ymd app disk xs).1.today_amount =
          spec_today_amount d (live (add_all local_ymd app disk xs).1) := by
  induction xs with
  | nil => intro _ _ h; exact absurd rfl h
  | cons x rest ih =>
    intro app disk _ hall
    obtain ⟨hx, hd⟩ := hall x (List.mem_cons_self _ _)
    simp only [add_all]
    cases rest with
    | nil =>
      simp only [add_all]
      rw [← hd]
      exact ⟨add_today_count local_ymd app disk x.1 x.2 hx,
        add_today_amount local_ymd app disk x.1 x.2 hx⟩
    | cons y rest2 =>
      exact ih _ _ (List.cons_ne_nil _ _) (fun z hz => hall z (List.mem_cons_of_mem _ hz))

theorem add_all_fresh_day (local_ymd : Int → String) (d : String) (app : AppState)
    (disk : Disk) (xs : List (Int × AddEnv)) (hne : xs ≠ [])
    (hr : count_in_range app) (hold : ∀ r ∈ live app, r.date_str ≠ d)
    (hlen : xs.length ≤ 1000)
    (hall : ∀ x ∈ xs, 0 < x.1 ∧ local_ymd x.2.t_date = d ∧ local_ymd x.2.t_stats = d) :
    (add_all local_ymd app disk xs).1.today_count = (xs.length : Int) ∧
      (add_all local_ymd app disk xs).1.today_amount = (xs.map Prod.fst).sum := by
  obtain ⟨hc, ha⟩ := add_all_today local_ymd d xs app disk hne
    (fun x hx => ⟨(hall x hx).1, (hall x hx).2.2⟩)
  obtain ⟨olds2, hsub, heq⟩ := add_all_split local_ymd xs app disk (live app) [] hr
    (by simp) (by simpa using hlen) (fun x hx => (hall x hx).1)
  rw [List.nil_append] at heq
  have h1 := spec_today_none d olds2 (fun r hr2 => hold r (hsub r hr2))
  have h2 := spec_today_all d
    (xs.map (fun x => ({ timestamp := x.2.t_stamp, amount := x.1,
                         date_str := local_ymd x.2.t_date } : WaterRecord)))
    (by
      intro r hr2
      obtain ⟨x, hx, rfl⟩ := List.mem_map.mp hr2
      exact (hall x hx).2.1)
  rw [hc, ha, heq, spec_today_count_append, spec_today_amount_append, h1.1, h1.2, h2.1, h2.2]
  simp [List.map_map, Function.comp_def]

theorem should_remind_ne_zero (app : AppState) (now : Int) :
    should_remind app now ≠ 0 ↔
      app.paused = 0 ∧
        (app.last_reminder = 0 ∨
          now - app.last_reminder ≥ app.config.reminder_interval * 60) := by
  unfold should_remind
  by_cases hp : app.paused = 0
  · by_cases hc : app.last_reminder = 0 ∨
        now - app.last_reminder ≥ app.config.reminder_interval * 60
    · simp [hp, hc]
    · simp only [hp, ne_eq, not_true_eq_false, if_false, true_and]
      rw [if_neg hc]
      simp [hc]
  · simp [hp]

theorem reminder_handler_paused (app : AppState) (hp : app.paused ≠ 0) (t_check t_set : Int) :
    reminder_handler app SIGALRM t_check t_set = (app, false) := by
  have h : ¬ should_remind app t_check ≠ 0 := by
    rw [should_remind_ne_zero]
    exact fun h => hp h.1
  simp only [reminder_handler, if_true, if_neg h]

theorem run_ticks_paused (app : AppState) (hp : app.paused ≠ 0) (ticks : List (Int × Int)) :
    run_ticks app ticks = (app, 0) := by
  induction ticks with
  | nil => rfl
  | cons t rest ih =>
    simp only [run_ticks, reminder_handler_paused app hp, ih]
    rfl

/-- For at most 1000 scanned records of 0 to 2000 ml each, every intermediate
pair of the scan in `calculate_today_stats` fits a 32-bit `int`. -/
theorem today_loop_within_int (app : AppState) (today : String) (k : Nat) (hk : k ≤ 1000)
    (hamt : ∀ i : Nat, i < k → 0 ≤ (app.records i).amount ∧ (app.records i).amount ≤ 2000) :
    (0 ≤ ((List.range k).foldl (today_step app today) (0, 0)).1 ∧
        ((List.range k).foldl (today_step app today) (0, 0)).1 ≤ (k : Int)) ∧
      (0 ≤ ((List.range k).foldl (today_step app today) (0, 0)).2 ∧
        ((List.range k).foldl (today_step app today) (0, 0)).2 ≤ 2000 * (k : Int)) ∧
      ((List.range k).foldl (today_step app today) (0, 0)).1 < 2 ^ 31 ∧
      ((List.range k).foldl (today_step app today) (0, 0)).2 < 2 ^ 31 := by
  have main : ∀ j : Nat, j ≤ k →
      (0 ≤ ((List.range j).foldl (today_step app today) (0, 0)).1 ∧
        ((List.range j).foldl (today_step app today) (0, 0)).1 ≤ (j : Int)) ∧
      (0 ≤ ((List.range j).foldl (today_step app today) (0, 0)).2 ∧
        ((List.range j).foldl (today_step app today) (0, 0)).2 ≤ 2000 * (j : Int)) := by
    intro j
    induction j with
    | zero => intro _; simp
    | succ j ih =>
      intro hj
      obtain ⟨⟨a1, a2⟩, b1, b2⟩ := ih (by omega)
      obtain ⟨c1, c2⟩ := hamt j (by omega)
      rw [List.range_succ, List.foldl_append, List.foldl_cons, List.foldl_nil]
      generalize (List.range j).foldl (today_step app today) (0, 0) = q at a1 a2 b1 b2 ⊢
      unfold today_step
      split
      · refine ⟨⟨?_, ?_⟩, ?_, ?_⟩ <;> push_cast <;> omega
      · refine ⟨⟨?_, ?_⟩, ?_, ?_⟩ <;> push_cast <;> omega
  obtain ⟨⟨a1, a2⟩, b1, b2⟩ := main k (le_refl k)
  have hk' : (k : Int) ≤ 1000 := by exact_mod_cast hk
  refine ⟨⟨a1, a2⟩, ⟨b1, b2⟩, ?_, ?_⟩
  · have : (2 : Int) ^ 31 = 2147483648 := by norm_num
    omega
  · have : (2 : Int) ^ 31 = 2147483648 := by norm_num
    omega

theorem daily_fold_eq (app : AppState) (d : String) (l : List Nat) (acc : Int) :
    l.foldl (daily_step app d) acc = acc + spec_today_amount d (l.map app.records) := by
  induction l generalizing acc with
  | nil => simp [spec_today_amount]
  | cons i l ih =>
    rw [List.foldl_cons, ih]
    by_cases h : (app.records i).date_str = d
    · simp [daily_step, is_same_date, h, spec_today_amount, List.filter_cons]
      ring
    · simp [daily_step, is_same_date, h, spec_today_amount, List.filter_cons]

theorem daily_amount_scan_eq (local_ymd : Int → String) (app : AppState) (now d : Int) :
    daily_amount_scan app (target_date_str local_ymd now d) = day_total local_ymd app now d := by
  have e : now - d * 24 * 60 * 60 = now - d * 86400 := by ring
  simp [daily_amount_scan, daily_fold_eq, day_total, target_date_str, live, e]

theorem streak_loop_spec (local_ymd : Int → String) (app : AppState) (now goal_ml : Int) :
    ∀ (n : Nat) (day streak : Int),
      ∃ m : Nat, m ≤ n ∧
        streak_loop local_ymd app now goal_ml n day streak = streak + (m : Int) ∧
        (∀ j : Nat, j < m → day_total local_ymd app now (day + (j : Int)) ≥ goal_ml) ∧
        (m < n → day_total local_ymd app now (day + (m : Int)) < goal_ml) := by
  intro n
  induction n with
  | zero =>
    intro day streak
    exact ⟨0, le_refl 0, by simp [streak_loop], fun j hj => absurd hj (Nat.not_lt_zero j),
      fun h => absurd h (Nat.lt_irrefl 0)⟩
  | succ n ih =>
    intro day streak
    by_cases h : day_total local_ymd app now day ≥ goal_ml
    · obtain ⟨m, hm, heq, hall, hstop⟩ := ih (day + 1) (streak + 1)
      refine ⟨m + 1, by omega, ?_, ?_, ?_⟩
      · simp only [streak_loop, daily_amount_scan_eq, if_pos h, heq]
        push_cast
        ring
      · intro j hj
        cases j with
        | zero => simpa using h
        | succ j =>
          have := hall j (by omega)
          have e : day + ((j + 1 : Nat) : Int) = day + 1 + (j : Int) := by push_cast; ring
          rw [e]
          exact this
      · intro hlt
        have := hstop (by omega)
        have e : day + ((m + 1 : Nat) : Int) = day + 1 + (m : Int) := by push_cast; ring
        rw [e]
        exact this
    · refine ⟨0, Nat.zero_le _, ?_, fun j hj => absurd hj (Nat.not_lt_zero j), ?_⟩
      · simp only [streak_loop, daily_amount_scan_eq, if_neg h]
        simp
      · intro _
        simpa using h

theorem average_fold_eq (local_ymd : Int → String) (app : AppState) (now : Int)
    (l : List Nat) (acc : Int × Int) :
    l.foldl (average_step local_ymd app now) acc =
      (acc.1 + ((l.filter (fun (d : Nat) => decide (0 < day_total local_ymd app now (d : Int)))).map
          (fun (d : Nat) => day_total local_ymd app now (d : Int))).sum,
        acc.2 + ((l.filter
          (fun (d : Nat) => decide (0 < day_total local_ymd app now (d : Int)))).length : Int)) := by
  induction l generalizing acc with
  | nil => simp
  | cons d l ih =>
    rw [List.foldl_cons, ih]
    by_cases h : 0 < day_total local_ymd app now (d : Int)
    · simp [average_step, daily_amount_scan_eq, h, List.filter_cons]
      constructor <;> ring
    · simp [average_step, daily_amount_scan_eq, h, List.filter_cons]

theorem average_acc_eq (local_ymd : Int → String) (app : AppState) (now days : Int) :
    (List.range days.toNat).foldl (average_step local_ymd app now) (0, 0) =
      (((qualifying_days local_ymd app now days).map
          (fun (d : Nat) => day_total local_ymd app now (d : Int))).sum,
        ((qualifying_days local_ymd app now days).length : Int)) := by
  rw [average_fold_eq]
  simp [qualifying_days]

theorem bit_length_aux_zero (fuel : Nat) : bit_length_aux fuel 0 = 0 := by
  cases fuel <;> simp [bit_length_aux]

theorem bit_length_aux_spec (fuel : Nat) :
    ∀ n : Nat, n ≤ fuel → 0 < n →
      1 ≤ bit_length_aux fuel n ∧ 2 ^ (bit_length_aux fuel n - 1) ≤ n ∧
        n < 2 ^ bit_length_aux fuel n := by
  induction fuel with
  | zero => intro n h1 h2; omega
  | succ fuel ih =>
    intro n hle hpos
    have hne : n ≠ 0 := by omega
    simp only [bit_length_aux, hne, if_false]
    by_cases hhalf : n / 2 = 0
    · have hn1 : n = 1 := by omega
      rw [hhalf, bit_length_aux_zero]
      subst hn1
      simp
    · obtain ⟨h1, h2, h3⟩ := ih (n / 2) (by omega) (by omega)
      refine ⟨by omega, ?_, ?_⟩
      · have e : bit_length_aux fuel (n / 2) + 1 - 1 = (bit_length_aux fuel (n / 2) - 1) + 1 := by
          omega
        rw [e, pow_succ]
        omega
      · rw [pow_succ]
        omega

theorem bit_length_spec (n : Nat) (h : 0 < n) :
    1 ≤ bit_length n ∧ 2 ^ (bit_length n - 1) ≤ n ∧ n < 2 ^ bit_length n :=
  bit_length_aux_spec n n (le_refl n) h

theorem round24_pos (n d : Nat) (hn : 0 < n) (hd : 0 < d) : 0 < (round24 n d).1 := by
  obtain ⟨a1, a2, _⟩ := bit_length_spec n hn
  obtain ⟨_, _, b3⟩ := bit_length_spec d hd
  unfold round24
  simp only
  generalize hk : ((bit_length n : Int) - (bit_length d : Int)) = k
  generalize he : (if d * 2 ^ k.toNat ≤ n * 2 ^ (-k).toNat then k else k - 1) = e
  have hek : e ≤ k := by
    rw [← he]
    split <;> omega
  generalize hs : (23 - e : Int) = s
  have hexp : bit_length d + (-s).toNat ≤ bit_length n - 1 + s.toNat := by omega
  have hq : d * 2 ^ (-s).toNat < 2 ^ (bit_length d + (-s).toNat) := by
    rw [pow_add]
    exact Nat.mul_lt_mul_of_pos_right b3 (by positivity)
  have hp : 2 ^ (bit_length n - 1 + s.toNat) ≤ n * 2 ^ s.toNat := by
    rw [pow_add]
    exact Nat.mul_le_mul_right _ a2
  have hpq : d * 2 ^ (-s).toNat ≤ n * 2 ^ s.toNat :=
    le_of_lt (lt_of_lt_of_le hq (le_trans (Nat.pow_le_pow_right (by decide) hexp) hp))
  have hqpos : 0 < d * 2 ^ (-s).toNat := Nat.mul_pos hd (by positivity)
  have hm0 : 0 < n * 2 ^ s.toNat / (d * 2 ^ (-s).toNat) := Nat.div_pos hpq hqpos
  split
  · exact hm0
  · split
    · omega
    · split
      · exact hm0
      · omega

theorem f32_of_int_ne_zero (a : Int) (h : a ≠ 0) : (f32_of_int a).1 ≠ 0 := by
  unfold f32_of_int
  rw [if_neg h]
  have hpos := round24_pos a.natAbs 1 (Int.natAbs_pos.mpr h) (by decide)
  have hs : Int.sign a ≠ 0 := by
    intro h0
    exact h (Int.sign_eq_zero_iff_zero.mp h0)
  exact mul_ne_zero hs (by exact_mod_cast (Nat.pos_iff_ne_zero.mp hpos))

theorem f32_div_ne_zero (x y : Int × Int) (hx : x.1 ≠ 0) (hy : y.1 ≠ 0) :
    (f32_div x y).1 ≠ 0 := by
  unfold f32_div
  rw [if_neg hx]
  have hpos := round24_pos (x.1.natAbs * 2 ^ (x.2 - y.2).toNat)
    (y.1.natAbs * 2 ^ (y.2 - x.2).toNat)
    (Nat.mul_pos (Int.natAbs_pos.mpr hx) (by positivity))
    (Nat.mul_pos (Int.natAbs_pos.mpr hy) (by positivity))
  have hsx : Int.sign x.1 ≠ 0 := fun h0 => hx (Int.sign_eq_zero_iff_zero.mp h0)
  have hsy : Int.sign y.1 ≠ 0 := fun h0 => hy (Int.sign_eq_zero_iff_zero.mp h0)
  exact mul_ne_zero (mul_ne_zero hsx hsy) (by exact_mod_cast (Nat.pos_iff_ne_zero.mp hpos))

theorem float_div_ne_zero (a b : Int) (ha : a ≠ 0) (hb : b ≠ 0) :
    float_div a b ≠ none ∧ float_div a b ≠ some 0 := by
  unfold float_div
  rw [if_neg hb]
  refine ⟨by simp, ?_⟩
  intro h
  have hv := Option.some.inj h
  unfold f32_value at hv
  have hm := f32_div_ne_zero (f32_of_int a) (f32_of_int b) (f32_of_int_ne_zero a ha)
    (f32_of_int_ne_zero b hb)
  have h2 : (2 : ℚ) ^ (float_quot a b).2 ≠ 0 := zpow_ne_zero _ (by norm_num)
  rcases mul_eq_zero.mp hv with h0 | h0
  · exact hm (by exact_mod_cast h0)
  · exact h2 h0

theorem float_div_demo : float_div 4100 2 = some 2050 := by
  have h : float_quot 4100 2 = (8396800, -12) := by decide
  unfold float_div
  rw [if_neg (by decide), h]
  norm_num [f32_value]

theorem float_div_thirds : float_div 1000 3 = some (10922667 / 32768) := by
  have h : float_quot 1000 3 = (10922667, -15) := by decide
  unfold float_div
  rw [if_neg (by decide), h]
  norm_num [f32_value]

theorem two_zpow_split (x : Int) :
    (2 : ℚ) ^ x = (2 : ℚ) ^ x.toNat / (2 : ℚ) ^ (-x).toNat := by
  rcases le_total 0 x with h | h
  · have h1 : (-x).toNat = 0 := by omega
    rw [h1, pow_zero, div_one, ← zpow_natCast, Int.toNat_of_nonneg h]
  · have h1 : x.toNat = 0 := by omega
    have h2 : ((-x).toNat : Int) = -x := Int.toNat_of_nonneg (by omega)
    rw [h1, pow_zero, one_div, ← zpow_natCast, h2, zpow_neg, inv_inv]

theorem round24_exponent (n d : Nat) (hn : 0 < n) (hd : 0 < d) :
    (2 : ℚ) ^ ((round24 n d).2 + 23) ≤ (n : ℚ) / (d : ℚ) ∧
      (n : ℚ) / (d : ℚ) < (2 : ℚ) ^ ((round24 n d).2 + 23 + 1) := by
  obtain ⟨a1, a2, a3⟩ := bit_length_spec n hn
  obtain ⟨b1, b2, b3⟩ := bit_length_spec d hd
  have hdq : (0 : ℚ) < (d : ℚ) := by exact_mod_cast hd
  have a2q : (2 : ℚ) ^ ((bit_length n : Int) - 1) ≤ (n : ℚ) := by
    have : ((bit_length n : Int) - 1) = ((bit_length n - 1 : Nat) : Int) := by omega
    rw [this, zpow_natCast]
    exact_mod_cast a2
  have a3q : (n : ℚ) < (2 : ℚ) ^ (bit_length n : Int) := by
    rw [zpow_natCast]
    exact_mod_cast a3
  have b2q : (2 : ℚ) ^ ((bit_length d : Int) - 1) ≤ (d : ℚ) := by
    have : ((bit_length d : Int) - 1) = ((bit_length d - 1 : Nat) : Int) := by omega
    rw [this, zpow_natCast]
    exact_mod_cast b2
  have b3q : (d : ℚ) < (2 : ℚ) ^ (bit_length d : Int) := by
    rw [zpow_natCast]
    exact_mod_cast b3
  have h2 : (0 : ℚ) < 2 := by norm_num
  unfold round24
  simp only
  generalize hk : ((bit_length n : Int) - (bit_length d : Int)) = k
  have hcond : (d * 2 ^ k.toNat ≤ n * 2 ^ (-k).toNat) ↔ (2 : ℚ) ^ k ≤ (n : ℚ) / (d : ℚ) := by
    rw [two_zpow_split k, le_div_iff₀ hdq, div_mul_eq_mul_div, div_le_iff₀ (by positivity)]
    constructor
    · intro h
      have : ((d * 2 ^ k.toNat : Nat) : ℚ) ≤ ((n * 2 ^ (-k).toNat : Nat) : ℚ) := by
        exact_mod_cast h
      push_cast at this
      linarith
    · intro h
      have : ((d * 2 ^ k.toNat : Nat) : ℚ) ≤ ((n * 2 ^ (-k).toNat : Nat) : ℚ) := by
        push_cast
        linarith
      exact_mod_cast this
  -- bounds of n / d from the bit lengths
  have hlow : (2 : ℚ) ^ (k - 1) < (n : ℚ) / (d : ℚ) := by
    rw [lt_div_iff₀ hdq]
    calc (2 : ℚ) ^ (k - 1) * (d : ℚ) < (2 : ℚ) ^ (k - 1) * (2 : ℚ) ^ (bit_length d : Int) := by
          exact mul_lt_mul_of_pos_left b3q (by positivity)
      _ = (2 : ℚ) ^ ((bit_length n : Int) - 1) := by
          rw [← zpow_add₀ (by norm_num : (2 : ℚ) ≠ 0)]
          congr 1
          omega
      _ ≤ (n : ℚ) := a2q
  have hhigh : (n : ℚ) / (d : ℚ) < (2 : ℚ) ^ (k + 1) := by
    rw [div_lt_iff₀ hdq]
    calc (n : ℚ) < (2 : ℚ) ^ (bit_length n : Int) := a3q
      _ = (2 : ℚ) ^ (k + 1) * (2 : ℚ) ^ ((bit_length d : Int) - 1) := by
          rw [← zpow_add₀ (by norm_num : (2 : ℚ) ≠ 0)]
          congr 1
          omega
      _ ≤ (2 : ℚ) ^ (k + 1) * (d : ℚ) := by
          exact mul_le_mul_of_nonneg_left b2q (by positivity)
  by_cases hc : d * 2 ^ k.toNat ≤ n * 2 ^ (-k).toNat
  · rw [if_pos hc]
    have e1 : k - 23 + 23 = k := by ring
    have e2 : k - 23 + 23 + 1 = k + 1 := by ring
    rw [e2, e1]
    exact ⟨hcond.mp hc, hhigh⟩
  · rw [if_neg hc]
    have e1 : k - 1 - 23 + 23 = k - 1 := by ring
    have e2 : k - 1 - 23 + 23 + 1 = k := by ring
    rw [e2, e1]
    refine ⟨le_of_lt hlow, ?_⟩
    by_contra hge
    exact hc (hcond.mpr (not_lt.mp hge))

/-- The result of `round24` is a nearest 24-digit value: its significand lies in
`[2 ^ 23, 2 ^ 24]` and it differs from `n / d` by at most half a unit in the
last place. -/
theorem round24_nearest (n d : Nat) (hn : 0 < n) (hd : 0 < d) :
    2 ^ 23 ≤ (round24 n d).1 ∧ (round24 n d).1 ≤ 2 ^ 24 ∧
      |((round24 n d).1 : ℚ) * (2 : ℚ) ^ (round24 n d).2 - (n : ℚ) / (d : ℚ)|
        ≤ (2 : ℚ) ^ (round24 n d).2 / 2 := by
  obtain ⟨hlo, hhi⟩ := round24_exponent n d hn hd
  have hdq : (0 : ℚ) < (d : ℚ) := by exact_mod_cast hd
  have hnq : (0 : ℚ) < (n : ℚ) := by exact_mod_cast hn
  revert hlo hhi
  unfold round24
  simp only
  generalize ((bit_length n : Int) - (bit_length d : Int)) = k
  generalize (if d * 2 ^ k.toNat ≤ n * 2 ^ (-k).toNat then k else k - 1) = e
  intro hlo hhi
  have e1 : e - 23 + 23 = e := by ring
  rw [e1] at hlo hhi
  generalize hs : (23 - e : Int) = s
  generalize hp : n * 2 ^ s.toNat = p
  generalize hq : d * 2 ^ (-s).toNat = q
  have hqpos : 0 < q := by
    rw [← hq]
    exact Nat.mul_pos hd (by positivity)
  have hqq : (0 : ℚ) < (q : ℚ) := by exact_mod_cast hqpos
  -- p / q = n / d * 2 ^ s
  have hx : (p : ℚ) / (q : ℚ) = (n : ℚ) / (d : ℚ) * (2 : ℚ) ^ s := by
    rw [← hp, ← hq, two_zpow_split s]
    push_cast
    field_simp
  have hes : (2 : ℚ) ^ (e - 23) * (2 : ℚ) ^ s = 1 := by
    rw [← zpow_add₀ (by norm_num : (2 : ℚ) ≠ 0)]
    have : e - 23 + s = 0 := by omega
    rw [this, zpow_zero]
  have hspos : (0 : ℚ) < (2 : ℚ) ^ s := by positivity
  have hepos : (0 : ℚ) < (2 : ℚ) ^ (e - 23) := by positivity
  -- 2 ^ 23 <= p / q < 2 ^ 24
  have hxlo : (2 : ℚ) ^ (23 : Nat) ≤ (p : ℚ) / (q : ℚ) := by
    rw [hx]
    have : (2 : ℚ) ^ (23 : Nat) = (2 : ℚ) ^ e * (2 : ℚ) ^ s := by
      rw [← zpow_add₀ (by norm_num : (2 : ℚ) ≠ 0), ← zpow_natCast]
      congr 1
      omega
    rw [this]
    exact mul_le_mul_of_nonneg_right hlo (le_of_lt hspos)
  have hxhi : (p : ℚ) / (q : ℚ) < (2 : ℚ) ^ (24 : Nat) := by
    rw [hx]
    have : (2 : ℚ) ^ (24 : Nat) = (2 : ℚ) ^ (e + 1) * (2 : ℚ) ^ s := by
      rw [← zpow_add₀ (by norm_num : (2 : ℚ) ≠ 0), ← zpow_natCast]
      congr 1
      omega
    rw [this]
    exact mul_lt_mul_of_pos_right hhi hspos
  have hplo : 2 ^ 23 * q ≤ p := by
    have := (le_div_iff₀ hqq).mp hxlo
    exact_mod_cast this
  have hphi : p < 2 ^ 24 * q := by
    have := (div_lt_iff₀ hqq).mp hxhi
    exact_mod_cast this
  have hdm : q * (p / q) + p % q = p := Nat.div_add_mod p q
  have hr : p % q < q := Nat.mod_lt p hqpos
  have hm0lo : 2 ^ 23 ≤ p / q := by
    rw [Nat.le_div_iff_mul_le hqpos]
    exact hplo
  have hm0hi : p / q < 2 ^ 24 := by
    rw [Nat.div_lt_iff_lt_mul hqpos]
    exact hphi
  generalize hm0 : p / q = m0 at hdm hm0lo hm0hi ⊢
  generalize hrr : p % q = r at hdm hr ⊢
  -- the rounded significand is within one half of p / q
  have hnear : ∀ m : Nat, (2 * (m * q) ≤ 2 * p + q ∧ 2 * p ≤ 2 * (m * q) + q) →
      |(m : ℚ) * (2 : ℚ) ^ (e - 23) - (n : ℚ) / (d : ℚ)| ≤ (2 : ℚ) ^ (e - 23) / 2 := by
    intro m hm
    have hnd : (n : ℚ) / (d : ℚ) = (p : ℚ) / (q : ℚ) * (2 : ℚ) ^ (e - 23) := by
      rw [hx, mul_assoc, mul_comm ((2 : ℚ) ^ s), hes, mul_one]
    have h1 : (2 : ℚ) * ((m : ℚ) * (q : ℚ)) ≤ 2 * (p : ℚ) + (q : ℚ) := by exact_mod_cast hm.1
    have h2 : (2 : ℚ) * (p : ℚ) ≤ 2 * ((m : ℚ) * (q : ℚ)) + (q : ℚ) := by exact_mod_cast hm.2
    have hkey : ((m : ℚ) - (p : ℚ) / (q : ℚ)) * (q : ℚ) = (m : ℚ) * (q : ℚ) - (p : ℚ) := by
      field_simp
    have hdiff : |(m : ℚ) - (p : ℚ) / (q : ℚ)| ≤ 1 / 2 := by
      rw [abs_le]
      constructor
      · by_contra hlt
        have h3 := mul_lt_mul_of_pos_right (not_le.mp hlt) hqq
        rw [hkey] at h3
        linarith
      · by_contra hlt
        have h3 := mul_lt_mul_of_pos_right (not_le.mp hlt) hqq
        rw [hkey] at h3
        linarith
    rw [hnd, ← sub_mul, abs_mul, abs_of_pos hepos]
    calc |(m : ℚ) - (p : ℚ) / (q : ℚ)| * (2 : ℚ) ^ (e - 23)
        ≤ 1 / 2 * (2 : ℚ) ^ (e - 23) := mul_le_mul_of_nonneg_right hdiff (le_of_lt hepos)
      _ = (2 : ℚ) ^ (e - 23) / 2 := by ring
  have hq0 : q * m0 = m0 * q := Nat.mul_comm q m0
  have hq1 : (m0 + 1) * q = m0 * q + q := Nat.succ_mul m0 q
  have h23 : (2 : Nat) ^ 23 = 8388608 := by norm_num
  have h24 : (2 : Nat) ^ 24 = 16777216 := by norm_num
  rw [h23] at hm0lo
  rw [h24] at hm0hi
  rw [h23, h24]
  split
  · rename_i h
    exact ⟨hm0lo, le_of_lt hm0hi, hnear m0 ⟨by omega, by omega⟩⟩
  · split
    · rename_i h1 h2
      exact ⟨by omega, by omega, hnear (m0 + 1) ⟨by omega, by omega⟩⟩
    · split
      · rename_i h1 h2 h3
        exact ⟨hm0lo, le_of_lt hm0hi, hnear m0 ⟨by omega, by omega⟩⟩
      · rename_i h1 h2 h3
        exact ⟨by omega, by omega, hnear (m0 + 1) ⟨by omega, by omega⟩⟩

theorem round24_int_exact (n : Nat) (hn : 0 < n) (h : n < 2 ^ 24) :
    ((round24 n 1).1 : ℚ) * (2 : ℚ) ^ (round24 n 1).2 = (n : ℚ) := by
  obtain ⟨hlo, _⟩ := round24_exponent n 1 hn (by decide)
  revert hlo
  unfold round24
  simp only
  generalize ((bit_length n : Int) - (bit_length 1 : Int)) = k
  generalize (if 1 * 2 ^ k.toNat ≤ n * 2 ^ (-k).toNat then k else k - 1) = e
  intro hlo
  have e1 : e - 23 + 23 = e := by ring
  rw [e1, Nat.cast_one, div_one] at hlo
  have he : e ≤ 23 := by
    by_contra hgt
    have h24 : (24 : Int) ≤ e := by omega
    have h1 : (2 : ℚ) ^ (24 : Int) ≤ (2 : ℚ) ^ e := zpow_le_zpow_right₀ (by norm_num) h24
    have h2 : (n : ℚ) < (2 : ℚ) ^ (24 : Int) := by
      have : ((2 : ℚ) ^ (24 : Int)) = ((2 ^ 24 : Nat) : ℚ) := by norm_num
      rw [this]
      exact_mod_cast h
    linarith
  have hs : (-(23 - e)).toNat = 0 := by omega
  rw [hs, pow_zero, Nat.mul_one, Nat.mod_one, Nat.div_one]
  simp only [Nat.mul_zero, Nat.lt_one_iff, if_true, zero_lt_one]
  push_cast
  have hz : ((2 : ℚ) ^ (23 - e).toNat) = (2 : ℚ) ^ (23 - e) := by
    rw [← zpow_natCast, Int.toNat_of_nonneg (by omega)]
  rw [hz, mul_assoc, ← zpow_add₀ (by norm_num : (2 : ℚ) ≠ 0)]
  have : 23 - e + (e - 23) = 0 := by ring
  rw [this, zpow_zero, mul_one]

theorem f32_of_int_exact (a : Int) (h0 : 0 < a) (h : a < 2 ^ 24) :
    0 < (f32_of_int a).1 ∧ f32_value (f32_of_int a) = (a : ℚ) := by
  have hne : a ≠ 0 := by omega
  have hn : 0 < a.natAbs := Int.natAbs_pos.mpr hne
  have hlt : a.natAbs < 2 ^ 24 := by
    have : (2 : Int) ^ 24 = ((2 ^ 24 : Nat) : Int) := by norm_num
    omega
  have hsign : Int.sign a = 1 := Int.sign_eq_one_of_pos h0
  have hpos := round24_pos a.natAbs 1 hn (by decide)
  have hex := round24_int_exact a.natAbs hn hlt
  unfold f32_value f32_of_int
  rw [if_neg hne, hsign, one_mul]
  refine ⟨?_, ?_⟩
  · show (0 : Int) < ((round24 a.natAbs 1).1 : Int)
    exact_mod_cast hpos
  · simp only
    rw [Int.cast_natCast, hex, Nat.cast_natAbs, abs_of_pos h0]

/-- For two positive `int`s below `2 ^ 24` the conversions are exact and the
quotient `(float)a / b` is within a relative error of `2 ^ -24` of `a / b`. -/
theorem float_div_accuracy (a b : Int) (ha : 0 < a) (ha2 : a < 2 ^ 24)
    (hb : 0 < b) (hb2 : b < 2 ^ 24) :
    ∃ v : ℚ, float_div a b = some v ∧
      |v - (a : ℚ) / (b : ℚ)| ≤ (a : ℚ) / (b : ℚ) / 2 ^ 24 := by
  obtain ⟨hx1, hxv⟩ := f32_of_int_exact a ha ha2
  obtain ⟨hy1, hyv⟩ := f32_of_int_exact b hb hb2
  have hbne : b ≠ 0 := by omega
  refine ⟨_, by unfold float_div; rw [if_neg hbne], ?_⟩
  unfold float_quot
  generalize f32_of_int a = x at hx1 hxv ⊢
  generalize f32_of_int b = y at hy1 hyv ⊢
  unfold f32_value at hxv hyv
  have hxne : x.1 ≠ 0 := by omega
  have hnx : 0 < x.1.natAbs := Int.natAbs_pos.mpr hxne
  have hny : 0 < y.1.natAbs := Int.natAbs_pos.mpr (by omega)
  have hxabs : ((x.1.natAbs : Nat) : ℚ) = (x.1 : ℚ) := by
    rw [Nat.cast_natAbs, abs_of_pos hx1]
  have hyabs : ((y.1.natAbs : Nat) : ℚ) = (y.1 : ℚ) := by
    rw [Nat.cast_natAbs, abs_of_pos hy1]
  have hratio : ((x.1.natAbs * 2 ^ (x.2 - y.2).toNat : Nat) : ℚ) /
      ((y.1.natAbs * 2 ^ (y.2 - x.2).toNat : Nat) : ℚ) = (a : ℚ) / (b : ℚ) := by
    have hsplit := two_zpow_split (x.2 - y.2)
    have hneg : -(x.2 - y.2) = y.2 - x.2 := by ring
    rw [hneg] at hsplit
    have hsub : (2 : ℚ) ^ (x.2 - y.2) = (2 : ℚ) ^ x.2 / (2 : ℚ) ^ y.2 :=
      zpow_sub₀ (by norm_num) _ _
    have hy2 : (0 : ℚ) < (2 : ℚ) ^ y.2 := by positivity
    have hd2 : (0 : ℚ) < (2 : ℚ) ^ (y.2 - x.2).toNat := by positivity
    have hyq : (0 : ℚ) < (y.1 : ℚ) := by exact_mod_cast hy1
    push_cast
    rw [hxabs, hyabs, ← hxv, ← hyv, mul_div_mul_comm, ← hsplit, hsub, mul_div_mul_comm]
  have hnn : 0 < x.1.natAbs * 2 ^ (x.2 - y.2).toNat := Nat.mul_pos hnx (by positivity)
  have hdd : 0 < y.1.natAbs * 2 ^ (y.2 - x.2).toNat := Nat.mul_pos hny (by positivity)
  obtain ⟨_, _, hnear⟩ := round24_nearest _ _ hnn hdd
  obtain ⟨hlo, _⟩ := round24_exponent _ _ hnn hdd
  rw [hratio] at hnear hlo
  unfold f32_div f32_value
  rw [if_neg hxne, Int.sign_eq_one_of_pos hx1, Int.sign_eq_one_of_pos hy1]
  simp only [one_mul, Int.cast_natCast]
  refine le_trans hnear ?_
  have hpow : (2 : ℚ) ^ ((round24 (x.1.natAbs * 2 ^ (x.2 - y.2).toNat)
      (y.1.natAbs * 2 ^ (y.2 - x.2).toNat)).2 + 23) =
      (2 : ℚ) ^ (round24 (x.1.natAbs * 2 ^ (x.2 - y.2).toNat)
        (y.1.natAbs * 2 ^ (y.2 - x.2).toNat)).2 * 2 ^ 23 := by
    rw [zpow_add₀ (by norm_num : (2 : ℚ) ≠ 0)]
    norm_num
  rw [hpow] at hlo
  rw [div_le_div_iff₀ (by norm_num) (by norm_num)]
  nlinarith [hlo]

theorem calculate_daily_average_eq (local_ymd : Int → String) (app : AppState)
    (days now : Int) :
    calculate_daily_average local_ymd app days now =
      (if (qualifying_days local_ymd app now days).length = 0 then some 0
        else
          float_div
            ((qualifying_days local_ymd app now days).map
              (fun (d : Nat) => day_total local_ymd app now (d : Int))).sum
            ((qualifying_days local_ymd app now days).length : Int)) := by
  unfold calculate_daily_average
  by_cases hd : days ≤ 0
  · have : days.toNat = 0 := by omega
    simp [hd, qualifying_days, this]
  · rw [if_neg hd]
    simp only [average_acc_eq]
    by_cases hq : (qualifying_days local_ymd app now days).length = 0
    · simp [hq]
    · have hpos : ((qualifying_days local_ymd app now days).length : Int) > 0 := by omega
      rw [if_pos hpos, if_neg hq]

theorem day_total_empty (local_ymd : Int → String) (app : AppState) (now d : Int)
    (h : app.record_count ≤ 0) : day_total local_ymd app now d = 0 := by
  have : app.record_count.toNat = 0 := by omega
  simp [day_total, live, this, spec_today_amount]

theorem size_t_of_int_small (n : Int) (h0 : 0 ≤ n) (h1 : n ≤ 1000) :
    size_t_of_int n = n.toNat := by
  unfold size_t_of_int
  rw [Int.emod_eq_of_lt h0 (by
    have : (2 : Int) ^ 64 = 18446744073709551616 := by norm_num
    omega)]

theorem save_records_status (app : AppState) (disk : Disk) (xf : Transfer)
    (h0 : 0 ≤ app.record_count) (h1 : app.record_count ≤ 1000) :
    (save_records app disk xf).2 = 0 ↔
      (xf.open_ok = true ∧ app.record_count.toNat ≤ xf.count) := by
  unfold save_records
  rw [size_t_of_int_small _ h0 h1]
  by_cases ho : xf.open_ok = true
  · simp only [ho, if_true, true_and]
    by_cases hw : min xf.count app.record_count.toNat ≠ app.record_count.toNat
    · rw [if_pos hw]
      constructor
      · intro h
        simp at h
      · intro h
        omega
    · rw [if_neg hw]
      constructor
      · intro _
        omega
      · intro _
        rfl
  · simp [ho]

theorem save_records_file (app : AppState) (disk : Disk) (xf : Transfer)
    (h0 : 0 ≤ app.record_count) (h1 : app.record_count ≤ 1000)
    (ho : xf.open_ok = true) (hc : app.record_count.toNat ≤ xf.count)
    (hf : app.record_count.toNat ≤ xf.flushed) :
    (save_records app disk xf).1.data_file = some (live app) := by
  unfold save_records
  rw [size_t_of_int_small _ h0 h1]
  have hw : min xf.count app.record_count.toNat = app.record_count.toNat := by omega
  have hs : min xf.flushed app.record_count.toNat = app.record_count.toNat := by omega
  simp only [ho, if_true, hw, hs, live]
  split <;> rfl

theorem save_config_status (config : UserConfig) (disk : Disk) (xf : Transfer) :
    (save_config config disk xf).2 = 0 ↔ (xf.open_ok = true ∧ 1 ≤ xf.count) := by
  unfold save_config
  by_cases ho : xf.open_ok = true
  · simp only [ho, if_true, true_and]
    by_cases hw : min xf.count 1 ≠ 1
    · rw [if_pos hw]
      constructor
      · intro h
        simp at h
      · intro h
        omega
    · rw [if_neg hw]
      constructor
      · intro _
        omega
      · intro _
        rfl
  · simp [ho]

theorem save_config_file (config : UserConfig) (disk : Disk) (xf : Transfer)
    (ho : xf.open_ok = true) (hc : 1 ≤ xf.count) (hf : 1 ≤ xf.flushed) :
    (save_config config disk xf).1.config_file = some [config] := by
  unfold save_config
  have hw : min xf.count 1 = 1 := by omega
  have hs : min xf.flushed 1 = 1 := by omega
  simp only [ho, if_true, hw, hs]
  split <;> rfl

theorem weekly_fold_eq (local_ymd : Int → String) (app : AppState) (now : Int)
    (l : List Nat) (acc : List (String × Int) × Int × Int) :
    (l.foldl (weekly_step local_ymd app now) acc).2 =
      (acc.2.1 + ((l.filter
            (fun (d : Nat) => decide (0 < day_total local_ymd app now (d : Int)))).map
          (fun (d : Nat) => day_total local_ymd app now (d : Int))).sum,
        acc.2.2 + ((l.filter
          (fun (d : Nat) => decide (0 < day_total local_ymd app now (d : Int)))).length : Int)) := by
  induction l generalizing acc with
  | nil => simp
  | cons d l ih =>
    rw [List.foldl_cons, ih]
    by_cases h : 0 < day_total local_ymd app now (d : Int)
    · simp [weekly_step, daily_amount_scan_eq, h, List.filter_cons]
      constructor <;> ring
    · simp [weekly_step, daily_amount_scan_eq, h, List.filter_cons]

theorem monthly_fold_eq (local_ymd : Int → String) (app : AppState) (now : Int)
    (l : List Nat) (acc : MonthlyAcc) :
    (l.foldl (monthly_step local_ymd app now) acc).monthly_total =
        acc.monthly_total + ((l.filter
            (fun (d : Nat) => decide (0 < day_total local_ymd app now (d : Int)))).map
          (fun (d : Nat) => day_total local_ymd app now (d : Int))).sum ∧
      (l.foldl (monthly_step local_ymd app now) acc).monthly_days =
        acc.monthly_days + ((l.filter
          (fun (d : Nat) => decide (0 < day_total local_ymd app now (d : Int)))).length : Int) := by
  induction l generalizing acc with
  | nil => simp
  | cons d l ih =>
    rw [List.foldl_cons]
    obtain ⟨h1, h2⟩ := ih (monthly_step local_ymd app now acc d)
    rw [h1, h2]
    by_cases h : 0 < day_total local_ymd app now (d : Int)
    · simp [monthly_step, daily_amount_scan_eq, h, List.filter_cons]
      constructor <;> ring
    · simp [monthly_step, daily_amount_scan_eq, h, List.filter_cons]

theorem reverse_window_eq (local_ymd : Int → String) (app : AppState) (now : Int) (n : Nat) :
    (((List.range n).reverse.filter
          (fun (d : Nat) => decide (0 < day_total local_ymd app now (d : Int)))).map
        (fun (d : Nat) => day_total local_ymd app now (d : Int))).sum =
        ((qualifying_days local_ymd app now (n : Int)).map
          (fun (d : Nat) => day_total local_ymd app now (d : Int))).sum ∧
      ((List.range n).reverse.filter
          (fun (d : Nat) => decide (0 < day_total local_ymd app now (d : Int)))).length =
        (qualifying_days local_ymd app now (n : Int)).length := by
  unfold qualifying_days
  rw [Int.toNat_ofNat, List.filter_reverse, List.map_reverse, List.sum_reverse,
    List.length_reverse]
  exact ⟨rfl, rfl⟩

theorem qualifying_sum_pos (local_ymd : Int → String) (app : AppState) (now days : Int)
    (h : (qualifying_days local_ymd app now days).length ≠ 0) :
    0 < ((qualifying_days local_ymd app now days).map
      (fun (d : Nat) => day_total local_ymd app now (d : Int))).sum := by
  apply List.sum_pos
  · intro x hx
    obtain ⟨d, hd, rfl⟩ := List.mem_map.mp hx
    have := (List.mem_filter.mp hd).2
    simpa using this
  · intro hnil
    apply h
    have := congrArg List.length hnil
    simpa using this

theorem qualifying_nil_iff (local_ymd : Int → String) (app : AppState) (now : Int) (n : Nat) :
    (qualifying_days local_ymd app now (n : Int)).length = 0 ↔
      ∀ d : Nat, d < n → ¬ 0 < day_total local_ymd app now (d : Int) := by
  unfold qualifying_days
  rw [Int.toNat_ofNat, List.length_eq_zero, List.filter_eq_nil_iff]
  constructor
  · intro h d hd
    simpa using h d (List.mem_range.mpr hd)
  · intro h d hd
    simpa using h d (List.mem_range.mp hd)

theorem average_cases (local_ymd : Int → String) (app : AppState) (now : Int) (n : Nat) :
    ((qualifying_days local_ymd app now (n : Int)).length = 0 →
        calculate_daily_average local_ymd app (n : Int) now = some 0) ∧
      ((qualifying_days local_ymd app now (n : Int)).length ≠ 0 →
        calculate_daily_average local_ymd app (n : Int) now =
            float_div
              ((qualifying_days local_ymd app now (n : Int)).map
                (fun (d : Nat) => day_total local_ymd app now (d : Int))).sum
              ((qualifying_days local_ymd app now (n : Int)).length : Int) ∧
          calculate_daily_average local_ymd app (n : Int) now ≠ some 0 ∧
          calculate_daily_average local_ymd app (n : Int) now ≠ none) := by
  rw [calculate_daily_average_eq]
  refine ⟨fun h => by rw [if_pos h], fun h => ?_⟩
  rw [if_neg h]
  have hpos := qualifying_sum_pos local_ymd app now (n : Int) h
  have hnz := float_div_ne_zero
    ((qualifying_days local_ymd app now (n : Int)).map
      (fun (d : Nat) => day_total local_ymd app now (d : Int))).sum
    ((qualifying_days local_ymd app now (n : Int)).length : Int) (by omega) (by omega)
  exact ⟨rfl, hnz.2, hnz.1⟩

theorem show_weekly_stats_eq (local_ymd : Int → String) (app : AppState) (now : Int) :
    ∃ w : WeeklyStats, show_weekly_stats local_ymd app now = some w ∧
      w.weekly_total = ((qualifying_days local_ymd app now 7).map
        (fun (d : Nat) => day_total local_ymd app now (d : Int))).sum ∧
      w.weekly_days = ((qualifying_days local_ymd app now 7).length : Int) ∧
      w.daily_avg =
        (if (qualifying_days local_ymd app now 7).length = 0 then none
          else float_div w.weekly_total w.weekly_days) := by
  have hacc := weekly_fold_eq local_ymd app now (List.range 7).reverse ([], 0, 0)
  obtain ⟨hs, hl⟩ := reverse_window_eq local_ymd app now 7
  simp only [Nat.cast_ofNat] at hs hl
  simp only [zero_add, hs, hl] at hacc
  have h1 := congrArg Prod.fst hacc
  have h2 := congrArg Prod.snd hacc
  simp only at h1 h2
  unfold show_weekly_stats
  simp only [h1, h2]
  by_cases hq : (qualifying_days local_ymd app now 7).length = 0
  · have hn : ¬ (((qualifying_days local_ymd app now 7).length : Int) > 0) := by
      omega
    rw [if_neg hn]
    exact ⟨_, rfl, rfl, rfl, by simp only; rw [if_pos hq]⟩
  · have hp : ((qualifying_days local_ymd app now 7).length : Int) > 0 := by
      omega
    have hne : ((qualifying_days local_ymd app now 7).length : Int) ≠ 0 := by
      omega
    rw [if_pos hp]
    simp only [float_div, if_neg hne, Option.map_some']
    exact ⟨_, rfl, rfl, rfl, by simp only; rw [if_neg hq, if_neg hne]⟩

theorem show_monthly_stats_eq (local_ymd : Int → String) (app : AppState) (now : Int) :
    ∃ m : MonthlyStats, show_monthly_stats local_ymd app now = some m ∧
      m.acc.monthly_total = ((qualifying_days local_ymd app now 30).map
        (fun (d : Nat) => day_total local_ymd app now (d : Int))).sum ∧
      m.acc.monthly_days = ((qualifying_days local_ymd app now 30).length : Int) ∧
      m.daily_avg =
        (if (qualifying_days local_ymd app now 30).length = 0 then none
          else float_div m.acc.monthly_total m.acc.monthly_days) := by
  obtain ⟨h1, h2⟩ := monthly_fold_eq local_ymd app now (List.range 30).reverse
    { monthly_total := 0, monthly_days := 0, best_day := 0, goal_achieved_days := 0 }
  obtain ⟨hs, hl⟩ := reverse_window_eq local_ymd app now 30
  simp only [Nat.cast_ofNat] at hs hl
  simp only [zero_add, hs, hl] at h1 h2
  unfold show_monthly_stats
  generalize (List.range 30).reverse.foldl (monthly_step local_ymd app now)
    { monthly_total := 0, monthly_days := 0, best_day := 0, goal_achieved_days := 0 } = acc
    at h1 h2 ⊢
  by_cases hq : (qualifying_days local_ymd app now 30).length = 0
  · have hn : ¬ (acc.monthly_days > 0) := by rw [h2]; omega
    simp only [if_neg hn]
    exact ⟨_, rfl, h1, h2, by simp only; rw [if_pos hq]⟩
  · have hp : acc.monthly_days > 0 := by rw [h2]; omega
    have hne : acc.monthly_days ≠ 0 := by omega
    simp only [if_pos hp, float_div, if_neg hne, Option.map_some']
    exact ⟨_, rfl, h1, h2, by simp only; rw [if_neg hq, if_neg hne]⟩

theorem demo_thirds_window :
    qualifying_days demo_ymd3 demo_thirds 90000 3 = [0, 1, 2] ∧
      day_total demo_ymd3 demo_thirds 90000 ((0 : Nat) : Int) = 400 ∧
      day_total demo_ymd3 demo_thirds 90000 ((1 : Nat) : Int) = 300 ∧
      day_total demo_ymd3 demo_thirds 90000 ((2 : Nat) : Int) = 300 := by
  decide

theorem demo_streak_week_average :
    calculate_daily_average demo_ymd3 demo_streak 7 90000 = some 2050 := by
  have hq : qualifying_days demo_ymd3 demo_streak 90000 7 = [0, 1] := by decide
  have h0 : day_total demo_ymd3 demo_streak 90000 ((0 : Nat) : Int) = 2100 := by decide
  have h1 : day_total demo_ymd3 demo_streak 90000 ((1 : Nat) : Int) = 2000 := by decide
  rw [calculate_daily_average_eq, hq]
  simp only [List.map_cons, List.map_nil, h0, h1]
  exact float_div_demo

theorem fixed_offset_ymd_same_day (off t1 t2 : Int) :
    fixed_offset_ymd off t1 = fixed_offset_ymd off t2 ↔
      (t1 + off) / 86400 = (t2 + off) / 86400 := by
  unfold fixed_offset_ymd day_key
  constructor
  · intro h
    have h1 := congrArg (fun s : String => s.data.length) h
    simp only [List.length_replicate] at h1
    exact Equiv.intEquivNat.injective h1
  · intro h
    rw [h]

theorem spec_today_amount_cons (s : String) (r : WaterRecord) (l : List WaterRecord) :
    spec_today_amount s (r :: l) =
      (if r.date_str = s then r.amount else 0) + spec_today_amount s l := by
  by_cases h : r.date_str = s
  · simp [spec_today_amount, List.filter_cons, h]
  · simp [spec_today_amount, List.filter_cons, h]

theorem spec_today_amount_nonneg (s : String) (l : List WaterRecord)
    (h : ∀ r ∈ l, 0 < r.amount) : 0 ≤ spec_today_amount s l := by
  unfold spec_today_amount
  apply List.sum_nonneg
  intro x hx
  obtain ⟨r, hr, rfl⟩ := List.mem_map.mp hx
  exact le_of_lt (h r (List.mem_filter.mp hr).1)

theorem sum_single_key_le (key : String) (a : Int) (ha : 0 ≤ a) (ds : List String)
    (hnd : ds.Nodup) : (ds.map (fun s => if key = s then a else 0)).sum ≤ a := by
  induction ds with
  | nil => simpa using ha
  | cons s ds ih =>
    obtain ⟨hnot, hnd2⟩ := List.nodup_cons.mp hnd
    rw [List.map_cons, List.sum_cons]
    by_cases hk : key = s
    · have hzero : (ds.map (fun s => if key = s then a else 0)).sum = 0 := by
        apply List.sum_eq_zero
        intro x hx
        obtain ⟨t, ht, rfl⟩ := List.mem_map.mp hx
        have : key ≠ t := by
          intro h
          exact hnot (by rw [← hk, h]; exact ht)
        simp [this]
      rw [if_pos hk, hzero]
      omega
    · rw [if_neg hk]
      have := ih hnd2
      omega

theorem sum_over_dates_le (ds : List String) (hnd : ds.Nodup) (l : List WaterRecord)
    (h : ∀ r ∈ l, 0 < r.amount) :
    (ds.map (fun s => spec_today_amount s l)).sum ≤ (l.map WaterRecord.amount).sum := by
  induction l with
  | nil => simp [spec_today_amount]
  | cons r l ih =>
    have hr : 0 < r.amount := h r (List.mem_cons_self _ _)
    have ih2 := ih (fun x hx => h x (List.mem_cons_of_mem _ hx))
    have hsplit : (ds.map (fun s => spec_today_amount s (r :: l))).sum =
        (ds.map (fun s => if r.date_str = s then r.amount else 0)).sum +
          (ds.map (fun s => spec_today_amount s l)).sum := by
      rw [← List.sum_map_add]
      congr 1
      apply List.map_congr_left
      intro s _
      exact spec_today_amount_cons s r l
    have hone := sum_single_key_le r.date_str r.amount (le_of_lt hr) ds hnd
    rw [hsplit, List.map_cons, List.sum_cons]
    omega

theorem filter_sum_le (f : Nat → Int) (p : Nat → Bool) (l : List Nat)
    (h : ∀ d ∈ l, 0 ≤ f d) : ((l.filter p).map f).sum ≤ (l.map f).sum := by
  induction l with
  | nil => simp
  | cons d l ih =>
    have hd := h d (List.mem_cons_self _ _)
    have ih2 := ih (fun x hx => h x (List.mem_cons_of_mem _ hx))
    by_cases hp : p d = true
    · simp only [List.filter_cons, hp, if_true, List.map_cons, List.sum_cons]
      omega
    · simp only [List.filter_cons, hp, List.map_cons, List.sum_cons]
      simp only [Bool.false_eq_true, if_false]
      omega

theorem window_total_le (local_ymd : Int → String) (off : Int) (app : AppState) (now : Int)
    (hcal : ∀ t1 t2 : Int,
      local_ymd t1 = local_ymd t2 ↔ (t1 + off) / 86400 = (t2 + off) / 86400)
    (hpos : ∀ r ∈ live app, 0 < r.amount) (n : Nat) :
    ((qualifying_days local_ymd app now (n : Int)).map
        (fun (d : Nat) => day_total local_ymd app now (d : Int))).sum
      ≤ ((live app).map WaterRecord.amount).sum := by
  have h1 : ((qualifying_days local_ymd app now (n : Int)).map
        (fun (d : Nat) => day_total local_ymd app now (d : Int))).sum
      ≤ ((List.range n).map (fun (d : Nat) => day_total local_ymd app now (d : Int))).sum := by
    unfold qualifying_days
    rw [Int.toNat_ofNat]
    exact filter_sum_le _ _ _ (fun d _ => spec_today_amount_nonneg _ _ hpos)
  have hnd : ((List.range n).map (fun (d : Nat) => local_ymd (now - (d : Int) * 86400))).Nodup := by
    apply List.Nodup.map_on _ (List.nodup_range n)
    intro x _ y _ hxy
    have := (hcal _ _).mp hxy
    omega
  have h2 := sum_over_dates_le _ hnd (live app) hpos
  rw [List.map_map] at h2
  exact le_trans h1 h2

theorem live_full_cons (app : AppState) (hfull : app.record_count = 1000) :
    live app = app.records 0 :: (live app).tail := by
  have e1 : (1000 : Int).toNat = 999 + 1 := by decide
  unfold live
  rw [hfull, e1, List.range_succ_eq_map]
  simp

theorem add_full_today (local_ymd : Int → String) (app : AppState) (disk : Disk)
    (a : Int) (env : AddEnv) (today : String) (hfull : app.record_count = 1000)
    (ha : 0 < a) (hcons : today_consistent today app)
    (hd : local_ymd env.t_date = today) (hs : local_ymd env.t_stats = today) :
    (add_water_record local_ymd app disk a env).1.today_count =
        app.today_count - spec_today_count today [app.records 0] + 1 ∧
      (add_water_record local_ymd app disk a env).1.today_amount =
        app.today_amount - spec_today_amount today [app.records 0] + a := by
  have hlive := live_add_full local_ymd app disk a env ha hfull
  have hcons2 := live_full_cons app hfull
  have hc1 : spec_today_count today (live app) =
      spec_today_count today [app.records 0] + spec_today_count today (live app).tail := by
    conv_lhs => rw [hcons2]
    exact spec_today_count_append today [app.records 0] (live app).tail
  have ha1 : spec_today_amount today (live app) =
      spec_today_amount today [app.records 0] + spec_today_amount today (live app).tail := by
    conv_lhs => rw [hcons2]
    exact spec_today_amount_append today [app.records 0] (live app).tail
  have hnew : spec_today_count today
        [({ timestamp := env.t_stamp, amount := a, date_str := local_ymd env.t_date } :
          WaterRecord)] = 1 ∧
      spec_today_amount today
        [({ timestamp := env.t_stamp, amount := a, date_str := local_ymd env.t_date } :
          WaterRecord)] = a := by
    simp [spec_today_count, spec_today_amount, hd]
  rw [add_today_amount local_ymd app disk a env ha,
    add_today_count local_ymd app disk a env ha, hs, hlive, spec_today_amount_append,
    spec_today_count_append, hnew.1, hnew.2, hcons.1, hcons.2, hc1, ha1]
  constructor <;> ring

theorem demo_cap_consistent : today_consistent "1970-01-01" demo_cap := by
  have hday : demo_ymd 100 = "1970-01-01" := by decide
  unfold today_consistent demo_cap
  rw [calculate_today_stats_count, calculate_today_stats_amount, calculate_today_stats_live,
    hday]
  exact ⟨Eq.refl _, Eq.refl _⟩

/-! ## Record store -/

/-- C1: when `record_count` equals `MAX_RECORDS` and the amount is positive,
`add_water_record` evicts exactly the oldest record: the count stays 1000,
slot `i` (for `i < 999`) receives the record that was in slot `i + 1`, and
slot 999 holds the new record with the given amount and the current date. -/
theorem add_water_record_evicts_oldest (local_ymd : Int → String) (app : AppState)
    (disk : Disk) (amount : Int) (env : AddEnv)
    (hfull : app.record_count = (MAX_RECORDS : Int)) (ha : amount > 0) :
    (add_water_record local_ymd app disk amount env).1.record_count = (MAX_RECORDS : Int) ∧
      (∀ i : Nat, i < 999 →
        (add_water_record local_ymd app disk amount env).1.records i = app.records (i + 1)) ∧
      (add_water_record local_ymd app disk amount env).1.records 999 =
        { timestamp := env.t_stamp, amount := amount,
          date_str := get_current_date_str local_ymd env.t_date } := by
  have hfull' : app.record_count = 1000 := by simpa using hfull
  obtain ⟨hc, hr⟩ := add_record_count_full local_ymd app disk amount env ha (by omega)
  refine ⟨by simpa using hc, ?_, ?_⟩
  · intro i hi
    rw [hr]
    have hne : i ≠ 999 := by omega
    simp [Function.update, hne, hi]
  · rw [hr]
    simp [get_current_date_str]

/-- Witness of C1 on the store at capacity `demo_full`, appending 250 ml at
time 100. -/
theorem add_water_record_evicts_oldest_witness :
    demo_full.record_count = (MAX_RECORDS : Int) ∧ (250 : Int) > 0 ∧
      (add_water_record demo_ymd demo_full demo_disk 250 (env_at 100)).1.record_count
        = (MAX_RECORDS : Int) ∧
      (∀ i : Nat, i < 999 →
        (add_water_record demo_ymd demo_full demo_disk 250 (env_at 100)).1.records i
          = demo_full.records (i + 1)) ∧
      (add_water_record demo_ymd demo_full demo_disk 250 (env_at 100)).1.records 999 =
        { timestamp := (env_at 100).t_stamp, amount := 250,
          date_str := get_current_date_str demo_ymd (env_at 100).t_date } :=
  ⟨rfl, by decide,
    add_water_record_evicts_oldest demo_ymd demo_full demo_disk 250 (env_at 100) rfl
      (by decide)⟩

/-- C2: `record_count` never exceeds `MAX_RECORDS`: from a state with
`0 <= record_count <= 1000`, the bound still holds after `add_water_record`
with any amount, after `load_records`, and after any sequence of these
operations. -/
theorem record_count_never_exceeds_max (local_ymd : Int → String) (app : AppState)
    (disk : Disk)
    (h : 0 ≤ app.record_count ∧ app.record_count ≤ (MAX_RECORDS : Int)) :
    (∀ (amount : Int) (env : AddEnv),
        0 ≤ (add_water_record local_ymd app disk amount env).1.record_count ∧
          (add_water_record local_ymd app disk amount env).1.record_count
            ≤ (MAX_RECORDS : Int)) ∧
      (∀ xf : Transfer,
        0 ≤ (load_records app disk xf).1.record_count ∧
          (load_records app disk xf).1.record_count ≤ (MAX_RECORDS : Int)) ∧
      (∀ ops : List StoreOp,
        0 ≤ (store_run local_ymd (app, disk) ops).1.record_count ∧
          (store_run local_ymd (app, disk) ops).1.record_count ≤ (MAX_RECORDS : Int)) :=
  ⟨fun amount env => add_in_range local_ymd app disk amount env h,
    fun xf => load_in_range app disk xf,
    fun ops => store_run_in_range local_ymd ops (app, disk) h⟩

/-- Witness of C2 on the store at capacity `demo_full`. -/
theorem record_count_never_exceeds_max_witness :
    (0 ≤ demo_full.record_count ∧ demo_full.record_count ≤ (MAX_RECORDS : Int)) ∧
      (0 ≤ (store_run demo_ymd (demo_full, demo_disk)
              [StoreOp.add 250 (env_at 100), StoreOp.load xfer_ok,
                StoreOp.add 300 (env_at 200)]).1.record_count ∧
        (store_run demo_ymd (demo_full, demo_disk)
              [StoreOp.add 250 (env_at 100), StoreOp.load xfer_ok,
                StoreOp.add 300 (env_at 200)]).1.record_count ≤ (MAX_RECORDS : Int)) :=
  ⟨by decide,
    (record_count_never_exceeds_max demo_ymd demo_full demo_disk (by decide)).2.2
      [StoreOp.add 250 (env_at 100), StoreOp.load xfer_ok, StoreOp.add 300 (env_at 200)]⟩

/-- C3: starting from an empty record store, appending `k <= MAX_RECORDS`
positive amounts in order leaves `record_count == k`, slot `i` holds the `i`-th
appended amount (with its timestamp and date, nothing reordered or dropped),
and the stored timestamps are non-decreasing when the clock readings are. -/
theorem add_all_keeps_insertion_order (local_ymd : Int → String) (app : AppState)
    (disk : Disk) (xs : List (Int × AddEnv))
    (hempty : app.record_count = 0) (hk : xs.length ≤ MAX_RECORDS)
    (hpos : ∀ x ∈ xs, x.1 > 0) :
    (add_all local_ymd app disk xs).1.record_count = (xs.length : Int) ∧
      (∀ (i : Nat) (hi : i < xs.length),
        (add_all local_ymd app disk xs).1.records i =
          { timestamp := xs[i].2.t_stamp, amount := xs[i].1,
            date_str := get_current_date_str local_ymd xs[i].2.t_date }) ∧
      ((xs.map (fun x => x.2.t_stamp)).Pairwise (fun a b => a ≤ b) →
        ∀ i j : Nat, i ≤ j → j < xs.length →
          ((add_all local_ymd app disk xs).1.records i).timestamp ≤
            ((add_all local_ymd app disk xs).1.records j).timestamp) := by
  have hk' : app.record_count + (xs.length : Int) ≤ 1000 := by
    have : (xs.length : Int) ≤ 1000 := by exact_mod_cast hk
    omega
  obtain ⟨hc, hl⟩ := add_all_live local_ymd xs app disk (by omega) hk' hpos
  have hnil : live app = [] := by simp [live, hempty]
  rw [hnil, List.nil_append] at hl
  rw [hempty, zero_add] at hc
  have hrec : ∀ (i : Nat) (hi : i < xs.length),
      (add_all local_ymd app disk xs).1.records i =
        { timestamp := xs[i].2.t_stamp, amount := xs[i].1,
          date_str := get_current_date_str local_ymd xs[i].2.t_date } := by
    intro i hi
    have h1 := live_getElem? (add_all local_ymd app disk xs).1 i (by rw [hc]; simpa using hi)
    rw [hl, List.getElem?_map, List.getElem?_eq_getElem hi] at h1
    simpa [get_current_date_str] using h1.symm
  refine ⟨hc, hrec, ?_⟩
  intro hsorted i j hij hj
  rw [hrec i (by omega), hrec j hj]
  show xs[i].2.t_stamp ≤ xs[j].2.t_stamp
  rcases Nat.lt_or_eq_of_le hij with hlt | heq
  · have := List.pairwise_iff_getElem.mp hsorted i j (by simp; omega) (by simpa using hj) hlt
    simpa using this
  · subst heq; exact le_refl _

/-- Witness of C3: three appends (150, 250, 350 ml at times 10, 20, 30) to the
empty store. -/
theorem add_all_keeps_insertion_order_witness :
    demo_empty.record_count = 0 ∧
      (add_all demo_ymd demo_empty demo_disk
        [(150, env_at 10), (250, env_at 20), (350, env_at 30)]).1.record_count = 3 ∧
      ((add_all demo_ymd demo_empty demo_disk
        [(150, env_at 10), (250, env_at 20), (350, env_at 30)]).1.records 1).amount = 250 :=
  ⟨rfl,
    (add_all_keeps_insertion_order demo_ymd demo_empty demo_disk
      [(150, env_at 10), (250, env_at 20), (350, env_at 30)] rfl (by decide)
      (by decide)).1,
    congrArg WaterRecord.amount
      ((add_all_keeps_insertion_order demo_ymd demo_empty demo_disk
        [(150, env_at 10), (250, env_at 20), (350, env_at 30)] rfl (by decide)
        (by decide)).2.1 1 (by decide))⟩

/-- C4: for every amount `<= 0`, `add_water_record` is a no-op: the whole state
(records, `record_count`, `today_count`, `today_amount`, `last_reminder`,
`paused`, `config`) and the persisted files are unchanged; the function has no
result through which an error could be surfaced. -/
theorem add_water_record_nonpositive_noop (local_ymd : Int → String) (app : AppState)
    (disk : Disk) (amount : Int) (env : AddEnv) (ha : amount ≤ 0) :
    add_water_record local_ymd app disk amount env = (app, disk) := by
  simp [add_water_record, ha]

/-- Witness of C4: appending `-5` ml to the store at capacity. -/
theorem add_water_record_nonpositive_noop_witness :
    (-5 : Int) ≤ 0 ∧
      add_water_record demo_ymd demo_full demo_disk (-5) (env_at 100) = (demo_full, demo_disk) :=
  ⟨by decide,
    add_water_record_nonpositive_noop demo_ymd demo_full demo_disk (-5) (env_at 100)
      (by decide)⟩

/-! ## Aggregator -/

/-- C5: `calculate_today_stats` sets `today_count` to the number of records
among the first `record_count` whose `date_str` equals today's date string and
`today_amount` to the sum of their amounts; the two values are the same for
any state whose record sequence is a permutation of this one, and do not
depend on the previously cached values. -/
theorem calculate_today_stats_correct (local_ymd : Int → String) (app : AppState)
    (now : Int) :
    ((calculate_today_stats local_ymd app now).today_count =
        (((live app).filter
          (fun r => decide (r.date_str = get_current_date_str local_ymd now))).length : Int)) ∧
      ((calculate_today_stats local_ymd app now).today_amount =
        (((live app).filter
          (fun r => decide (r.date_str = get_current_date_str local_ymd now))).map
            WaterRecord.amount).sum) ∧
      (∀ app2 : AppState, (live app2).Perm (live app) →
        (calculate_today_stats local_ymd app2 now).today_count =
            (calculate_today_stats local_ymd app now).today_count ∧
          (calculate_today_stats local_ymd app2 now).today_amount =
            (calculate_today_stats local_ymd app now).today_amount) ∧
      (∀ c a : Int,
        (calculate_today_stats local_ymd
            { app with today_count := c, today_amount := a } now).today_count =
            (calculate_today_stats local_ymd app now).today_count ∧
          (calculate_today_stats local_ymd
            { app with today_count := c, today_amount := a } now).today_amount =
            (calculate_today_stats local_ymd app now).today_amount) := by
  refine ⟨calculate_today_stats_count local_ymd app now,
    calculate_today_stats_amount local_ymd app now, ?_, ?_⟩
  · intro app2 hperm
    rw [calculate_today_stats_count, calculate_today_stats_count,
      calculate_today_stats_amount, calculate_today_stats_amount]
    unfold spec_today_count spec_today_amount
    have hf := hperm.filter (fun r => decide (r.date_str = local_ymd now))
    exact ⟨by rw [hf.length_eq], (hf.map WaterRecord.amount).sum_eq⟩
  · intro c a
    rw [calculate_today_stats_count, calculate_today_stats_count,
      calculate_today_stats_amount, calculate_today_stats_amount]
    exact ⟨rfl, rfl⟩

/-- Witness of C5: the store `demo_mixed` and the same records stored in the
other order give the same two totals. -/
theorem calculate_today_stats_correct_witness :
    (live demo_mixed_swapped).Perm (live demo_mixed) ∧
      (calculate_today_stats demo_ymd demo_mixed_swapped 100).today_count =
        (calculate_today_stats demo_ymd demo_mixed 100).today_count ∧
      (calculate_today_stats demo_ymd demo_mixed_swapped 100).today_amount =
        (calculate_today_stats demo_ymd demo_mixed 100).today_amount :=
  ⟨List.Perm.swap _ _ [],
    (calculate_today_stats_correct demo_ymd demo_mixed 100).2.2.1 demo_mixed_swapped
      (List.Perm.swap _ _ [])⟩

/-- C6: `add_water_record` refreshes the cached today totals synchronously.
Below capacity, if the cached totals agree with the records for the current
date, an append of `a > 0` on that date makes `today_amount` grow by exactly
`a` and `today_count` by exactly 1.  From a store with no record dated today,
8 appends of 250 on the same day give `today_amount == 2000` and a 9th gives
`2250`: the stored total is not capped at the goal. -/
theorem add_water_record_refreshes_today (local_ymd : Int → String) (app : AppState)
    (disk : Disk) :
    (∀ (a : Int) (env : AddEnv) (today : String),
        0 ≤ app.record_count → app.record_count < (MAX_RECORDS : Int) → a > 0 →
        today_consistent today app →
        get_current_date_str local_ymd env.t_date = today →
        get_current_date_str local_ymd env.t_stats = today →
        (add_water_record local_ymd app disk a env).1.today_amount = app.today_amount + a ∧
          (add_water_record local_ymd app disk a env).1.today_count = app.today_count + 1) ∧
      (∀ (envs : List AddEnv) (today : String),
        0 ≤ app.record_count → app.record_count ≤ (MAX_RECORDS : Int) →
        (∀ r ∈ live app, r.date_str ≠ today) →
        envs.length = 9 →
        (∀ e ∈ envs, get_current_date_str local_ymd e.t_date = today ∧
          get_current_date_str local_ymd e.t_stats = today) →
        (add_all local_ymd app disk
            ((envs.take 8).map (fun e => ((250 : Int), e)))).1.today_amount = 2000 ∧
          (add_all local_ymd app disk
            (envs.map (fun e => ((250 : Int), e)))).1.today_amount = 2250) := by
  refine ⟨?_, ?_⟩
  · intro a env today h0 hlt ha hcons hd hs
    have hlt' : app.record_count < 1000 := by simpa using hlt
    simp only [get_current_date_str] at hd hs
    have hlive := live_add_below local_ymd app disk a env ha h0 hlt'
    have hnew : spec_today_count today
          [({ timestamp := env.t_stamp, amount := a, date_str := local_ymd env.t_date } :
            WaterRecord)] = 1 ∧
        spec_today_amount today
          [({ timestamp := env.t_stamp, amount := a, date_str := local_ymd env.t_date } :
            WaterRecord)] = a := by
      simp [spec_today_count, spec_today_amount, hd]
    rw [add_today_amount local_ymd app disk a env ha,
      add_today_count local_ymd app disk a env ha, hs, hlive, spec_today_amount_append,
      spec_today_count_append, hnew.1, hnew.2, hcons.1, hcons.2]
    exact ⟨rfl, rfl⟩
  · intro envs today h0 h1 hold hlen hall
    have hall8 : ∀ x ∈ (envs.take 8).map (fun e => ((250 : Int), e)),
        0 < x.1 ∧ local_ymd x.2.t_date = today ∧ local_ymd x.2.t_stats = today := by
      intro x hx
      obtain ⟨e, he, rfl⟩ := List.mem_map.mp hx
      exact ⟨by norm_num, hall e (List.mem_of_mem_take he)⟩
    have hall9 : ∀ x ∈ envs.map (fun e => ((250 : Int), e)),
        0 < x.1 ∧ local_ymd x.2.t_date = today ∧ local_ymd x.2.t_stats = today := by
      intro x hx
      obtain ⟨e, he, rfl⟩ := List.mem_map.mp hx
      exact ⟨by norm_num, hall e he⟩
    have hne8 : (envs.take 8).map (fun e => ((250 : Int), e)) ≠ [] := by
      intro h
      have := congrArg List.length h
      simp [hlen] at this
    have hne9 : envs.map (fun e => ((250 : Int), e)) ≠ [] := by
      intro h
      have := congrArg List.length h
      simp [hlen] at this
    have r8 := add_all_fresh_day local_ymd today app disk _ hne8 ⟨h0, h1⟩ hold
      (by simp [hlen]) hall8
    have r9 := add_all_fresh_day local_ymd today app disk _ hne9 ⟨h0, h1⟩ hold
      (by simp [hlen]) hall9
    refine ⟨?_, ?_⟩
    · rw [r8.2]
      simp [List.map_map, Function.comp_def, hlen]
    · rw [r9.2]
      simp [List.map_map, Function.comp_def, hlen]

/-- Witness of C6: one append of 250 ml to `demo_two` (two records of the day,
cached total 400), and nine appends of 250 ml to the store at capacity, whose
records all predate the day. -/
theorem add_water_record_refreshes_today_witness :
    ((add_water_record demo_ymd demo_two demo_disk 250 (env_at 100)).1.today_amount
          = demo_two.today_amount + 250 ∧
        (add_water_record demo_ymd demo_two demo_disk 250 (env_at 100)).1.today_count
          = demo_two.today_count + 1) ∧
      ((add_all demo_ymd demo_full demo_disk
            ((demo_nine.take 8).map (fun e => ((250 : Int), e)))).1.today_amount = 2000 ∧
        (add_all demo_ymd demo_full demo_disk
            (demo_nine.map (fun e => ((250 : Int), e)))).1.today_amount = 2250) :=
  ⟨(add_water_record_refreshes_today demo_ymd demo_two demo_disk).1 250 (env_at 100)
      "1970-01-01" (by decide) (by decide) (by decide)
      ⟨by decide, by decide⟩ (by decide) (by decide),
    (add_water_record_refreshes_today demo_ymd demo_full demo_disk).2 demo_nine
      "1970-01-01" (by decide) (by decide)
      (by
        intro r hr
        obtain ⟨i, _, rfl⟩ := List.mem_map.mp hr
        show ("1969-12-31" : String) ≠ "1970-01-01"
        decide)
      (by decide) (by decide)⟩

/-! ## Reminder scheduler -/

/-- C7: `should_remind` returns true (non-zero) if and only if the state is not
paused and (`last_reminder == 0` or
`now - last_reminder >= reminder_interval * 60`); the interval is the one held
by the configuration at the call, so an interval stored by the settings menu
is the one the next call uses. -/
theorem should_remind_spec (app : AppState) (now : Int) :
    (should_remind app now ≠ 0 ↔
        app.paused = 0 ∧
          (app.last_reminder = 0 ∨
            now - app.last_reminder ≥ app.config.reminder_interval * 60)) ∧
      (should_remind app now = 0 ∨ should_remind app now = 1) ∧
      (∀ (disk : Disk) (ev : SettingsEvent) (v : Int),
        ev.choice = 1 → ev.value = some v → 5 ≤ v → v ≤ 300 →
        (should_remind (settings_case app disk ev).1 now ≠ 0 ↔
          app.paused = 0 ∧ (app.last_reminder = 0 ∨ now - app.last_reminder ≥ v * 60))) := by
  refine ⟨should_remind_ne_zero app now, ?_, ?_⟩
  · unfold should_remind
    split
    · exact Or.inl rfl
    · dsimp only
      split
      · exact Or.inr rfl
      · exact Or.inl rfl
  · intro disk ev v hc hv h5 h300
    rw [should_remind_ne_zero]
    have hr : ¬ (v < 5 ∨ v > 300) := by omega
    simp [settings_case, hc, hv, hr]

/-- Witness of C7: after the settings menu stores the interval 30, a state last
reminded at time 0 of an unpaused run is judged with `30 * 60`. -/
theorem should_remind_spec_witness :
    demo_interval_event.choice = 1 ∧ demo_interval_event.value = some 30 ∧
      (should_remind (settings_case demo_two demo_disk demo_interval_event).1 1800 ≠ 0 ↔
        demo_two.paused = 0 ∧
          (demo_two.last_reminder = 0 ∨ 1800 - demo_two.last_reminder ≥ 30 * 60)) :=
  ⟨rfl, rfl,
    (should_remind_spec demo_two 1800).2.2 demo_disk demo_interval_event 30 rfl rfl
      (by decide) (by decide)⟩

/-- C8, as stated, fails.  The handler stores the clock value read after the
notification was shown: from the unpaused state `demo_empty`
(`last_reminder == 0`, interval 60) a tick at `T = 1000` whose second reading
is 1002 fires and stores 1002, not 1000; the tick at `T + 3000` does not
fire, and the tick at `T + 3601 = 4601` does not fire either, since
`4601 - 1002 < 3600`.  Moreover a firing that stores the clock value 0 leaves
the "never reminded" value in place, so the tick at time 1, inside
`[0, 3600)`, fires again. -/
theorem reminder_handler_stores_later_reading :
    (reminder_handler demo_empty SIGALRM 1000 1002).2 = true ∧
      (reminder_handler demo_empty SIGALRM 1000 1002).1.last_reminder = 1002 ∧
      (reminder_handler demo_empty SIGALRM 1000 1002).1.last_reminder ≠ 1000 ∧
      (reminder_handler (reminder_handler demo_empty SIGALRM 1000 1002).1 SIGALRM
          (1000 + 3000) (1000 + 3000)).2 = false ∧
      (reminder_handler
          (reminder_handler (reminder_handler demo_empty SIGALRM 1000 1002).1 SIGALRM
            (1000 + 3000) (1000 + 3000)).1 SIGALRM (1000 + 3601) (1000 + 3601)).2 = false ∧
      (reminder_handler demo_empty SIGALRM 0 0).2 = true ∧
      (0 : Int) ≤ 1 ∧
      (1 : Int) < 0 + (reminder_handler demo_empty SIGALRM 0 0).1.config.reminder_interval * 60 ∧
      (reminder_handler (reminder_handler demo_empty SIGALRM 0 0).1 SIGALRM 1 1).2 = true := by
  decide

/-- C8 (amended): a tick reads the clock twice, in `should_remind` (`t_check`)
and again after the notification was shown (`t_set`); it sets `last_reminder`
to `t_set` exactly when `should_remind` holds at `t_check` and otherwise
leaves it unchanged.  For an unpaused state with `last_reminder == 0` and
interval 60, a tick with readings `(T, T1)` fires and sets
`last_reminder == T1`; when `T1 != 0`, a following tick checked at `T1 + 3000`
does not fire and leaves `last_reminder == T1`, and a following tick checked
at `T1 + 3601` fires and sets `last_reminder` to its own second reading; a
tick checked at `T + 3601` fires exactly when `T1 <= T + 1`.  In general,
after a firing that stored `T1 != 0`, no tick checked at a time below
`T1 + interval * 60` fires, and such a tick leaves the state unchanged. -/
theorem reminder_handler_tick (app : AppState) :
    (∀ t_check t_set : Int,
        (reminder_handler app SIGALRM t_check t_set).1.last_reminder =
            (if should_remind app t_check ≠ 0 then t_set else app.last_reminder) ∧
          ((reminder_handler app SIGALRM t_check t_set).2 = true ↔
            should_remind app t_check ≠ 0)) ∧
      (∀ T T1 : Int, app.paused = 0 → app.last_reminder = 0 →
        app.config.reminder_interval = 60 →
        (reminder_handler app SIGALRM T T1).2 = true ∧
          (reminder_handler app SIGALRM T T1).1.last_reminder = T1 ∧
          (T1 ≠ 0 →
            (∀ u v : Int,
              (reminder_handler (reminder_handler app SIGALRM T T1).1 SIGALRM
                  (T1 + 3000) u).2 = false ∧
                (reminder_handler (reminder_handler app SIGALRM T T1).1 SIGALRM
                  (T1 + 3000) u).1.last_reminder = T1 ∧
                (reminder_handler
                  (reminder_handler (reminder_handler app SIGALRM T T1).1 SIGALRM
                    (T1 + 3000) u).1 SIGALRM (T1 + 3601) v).2 = true ∧
                (reminder_handler
                  (reminder_handler (reminder_handler app SIGALRM T T1).1 SIGALRM
                    (T1 + 3000) u).1 SIGALRM (T1 + 3601) v).1.last_reminder = v) ∧
              (∀ v : Int,
                (reminder_handler (reminder_handler app SIGALRM T T1).1 SIGALRM
                  (T + 3601) v).2 = true ↔ T1 ≤ T + 1))) ∧
      (∀ t_check T1 t u : Int, T1 ≠ 0 →
        (reminder_handler app SIGALRM t_check T1).2 = true →
        t < T1 + (reminder_handler app SIGALRM t_check T1).1.config.reminder_interval * 60 →
        (reminder_handler (reminder_handler app SIGALRM t_check T1).1 SIGALRM t u).2 = false ∧
          (reminder_handler (reminder_handler app SIGALRM t_check T1).1 SIGALRM t u).1
            = (reminder_handler app SIGALRM t_check T1).1) := by
  have key : ∀ (s : AppState) (t_check t_set : Int),
      reminder_handler s SIGALRM t_check t_set =
        if should_remind s t_check ≠ 0 then ({ s with last_reminder := t_set }, true)
        else (s, false) := by
    intro s t_check t_set
    simp only [reminder_handler, if_true]
  refine ⟨?_, ?_, ?_⟩
  · intro t_check t_set
    rw [key]
    by_cases h : should_remind app t_check ≠ 0
    · simp only [if_pos h, true_iff]
      exact ⟨trivial, h⟩
    · simp only [if_neg h]
      exact ⟨trivial, fun hf => absurd hf Bool.false_ne_true, fun hh => absurd hh h⟩
  · intro T T1 hp hl hi
    have f1 : should_remind app T ≠ 0 := by
      rw [should_remind_ne_zero]; exact ⟨hp, Or.inl hl⟩
    have e1 : reminder_handler app SIGALRM T T1 = ({ app with last_reminder := T1 }, true) := by
      rw [key, if_pos f1]
    rw [e1]
    refine ⟨rfl, rfl, ?_⟩
    intro hT1
    have f2 : ¬ should_remind ({ app with last_reminder := T1 } : AppState) (T1 + 3000) ≠ 0 := by
      rw [should_remind_ne_zero]
      simp only [hi]
      intro h
      rcases h.2 with h0 | h0
      · exact hT1 h0
      · omega
    have e2 : ∀ u : Int,
        reminder_handler ({ app with last_reminder := T1 } : AppState) SIGALRM (T1 + 3000) u =
          ({ app with last_reminder := T1 }, false) := by
      intro u
      rw [key, if_neg f2]
    have f3 : should_remind ({ app with last_reminder := T1 } : AppState) (T1 + 3601) ≠ 0 := by
      rw [should_remind_ne_zero]
      simp only [hi]
      exact ⟨hp, Or.inr (by omega)⟩
    have e3 : ∀ v : Int,
        reminder_handler ({ app with last_reminder := T1 } : AppState) SIGALRM (T1 + 3601) v =
          ({ app with last_reminder := v }, true) := by
      intro v
      rw [key, if_pos f3]
    refine ⟨?_, ?_⟩
    · intro u v
      simp only [e2, e3]
      exact ⟨trivial, trivial, trivial, trivial⟩
    · intro v
      rw [key]
      by_cases h4 : should_remind ({ app with last_reminder := T1 } : AppState) (T + 3601) ≠ 0
      · rw [if_pos h4]
        rw [should_remind_ne_zero] at h4
        simp only [hi] at h4
        refine ⟨fun _ => ?_, fun _ => rfl⟩
        rcases h4.2 with h0 | h0
        · exact absurd h0 hT1
        · omega
      · rw [if_neg h4]
        refine ⟨fun hf => absurd hf Bool.false_ne_true, fun hle => ?_⟩
        exfalso
        apply h4
        rw [should_remind_ne_zero]
        simp only [hi]
        exact ⟨hp, Or.inr (by omega)⟩
  · intro t_check T1 t u hT1 hfire hlt
    have f1 : should_remind app t_check ≠ 0 := by
      intro h
      rw [key, if_neg (not_not.mpr h)] at hfire
      exact Bool.false_ne_true hfire
    have e1 : reminder_handler app SIGALRM t_check T1 =
        ({ app with last_reminder := T1 }, true) := by
      rw [key, if_pos f1]
    rw [e1] at hlt ⊢
    have f2 : ¬ should_remind ({ app with last_reminder := T1 } : AppState) t ≠ 0 := by
      rw [should_remind_ne_zero]
      intro h
      rcases h.2 with h0 | h0
      · exact hT1 h0
      · simp only at h0 hlt
        omega
    have e2 : reminder_handler ({ app with last_reminder := T1 } : AppState) SIGALRM t u =
        ({ app with last_reminder := T1 }, false) := by
      rw [key, if_neg f2]
    simp only [e2]
    exact ⟨trivial, trivial⟩

/-- Witness of C8 (amended): from `demo_empty`, a tick with readings
`(1000, 1002)`, then ticks checked at `1002 + 3000` and `1002 + 3601`. -/
theorem reminder_handler_tick_witness :
    demo_empty.paused = 0 ∧ demo_empty.last_reminder = 0 ∧
      demo_empty.config.reminder_interval = 60 ∧ (1002 : Int) ≠ 0 ∧
      ((reminder_handler (reminder_handler demo_empty SIGALRM 1000 1002).1 SIGALRM
            (1002 + 3000) 4003).2 = false ∧
        (reminder_handler (reminder_handler demo_empty SIGALRM 1000 1002).1 SIGALRM
            (1002 + 3000) 4003).1.last_reminder = 1002 ∧
        (reminder_handler
            (reminder_handler (reminder_handler demo_empty SIGALRM 1000 1002).1 SIGALRM
              (1002 + 3000) 4003).1 SIGALRM (1002 + 3601) 4604).2 = true ∧
        (reminder_handler
            (reminder_handler (reminder_handler demo_empty SIGALRM 1000 1002).1 SIGALRM
              (1002 + 3000) 4003).1 SIGALRM (1002 + 3601) 4604).1.last_reminder = 4604) :=
  ⟨rfl, rfl, rfl, by decide,
    (((reminder_handler_tick demo_empty).2.1 1000 1002 rfl rfl rfl).2.2 (by decide)).1
      4003 4604⟩

/-- C9: while the state is paused no reminder is emitted: every tick, and
every finite sequence of ticks, shows no notification and leaves the whole
state (with `last_reminder`) unchanged; after un-pausing through main-menu
choice 4, the decision of the next tick is the one `should_remind` gives for
the `last_reminder` held before the pause. -/
theorem paused_emits_no_reminder (local_ymd : Int → String) (app : AppState) (disk : Disk)
    (hp : app.paused ≠ 0) :
    (∀ t_check t_set : Int, reminder_handler app SIGALRM t_check t_set = (app, false)) ∧
      (∀ ticks : List (Int × Int), run_ticks app ticks = (app, 0)) ∧
      (∀ (ticks : List (Int × Int)) (inp : MenuInput) (now : Int),
        (main_loop_case local_ymd (run_ticks app ticks).1 disk 4 inp).1.paused = 0 ∧
          (main_loop_case local_ymd (run_ticks app ticks).1 disk 4 inp).1.last_reminder
            = app.last_reminder ∧
          (should_remind (main_loop_case local_ymd (run_ticks app ticks).1 disk 4 inp).1 now ≠ 0
            ↔ (app.last_reminder = 0 ∨
                now - app.last_reminder ≥ app.config.reminder_interval * 60))) := by
  refine ⟨reminder_handler_paused app hp, run_ticks_paused app hp, ?_⟩
  intro ticks inp now
  rw [run_ticks_paused app hp ticks, should_remind_ne_zero]
  simp [main_loop_case, c_not, hp]

/-- Witness of C9: the paused state `demo_paused` through the 1440 ticks of a
day. -/
theorem paused_emits_no_reminder_witness :
    demo_paused.paused ≠ 0 ∧ demo_day_ticks.length = 1440 ∧
      run_ticks demo_paused demo_day_ticks = (demo_paused, 0) :=
  ⟨by decide, by rw [demo_day_ticks, List.length_map, List.length_range],
    (paused_emits_no_reminder demo_ymd demo_paused demo_disk (by decide)).2.1 demo_day_ticks⟩

/-- C10: main-menu choice 4 flips `paused` between 0 and non-zero and changes
nothing else: `last_reminder`, `config`, the records, `record_count`,
`today_count`, `today_amount`, `is_running` and the files are unchanged;
toggling twice from `paused` in `{0, 1}` restores the original state. -/
theorem pause_toggle_frame (local_ymd : Int → String) (app : AppState) (disk : Disk)
    (inp inp2 : MenuInput) :
    (app.paused = 0 → (main_loop_case local_ymd app disk 4 inp).1.paused ≠ 0) ∧
      (app.paused ≠ 0 → (main_loop_case local_ymd app disk 4 inp).1.paused = 0) ∧
      (main_loop_case local_ymd app disk 4 inp).1.last_reminder = app.last_reminder ∧
      (main_loop_case local_ymd app disk 4 inp).1.config = app.config ∧
      (main_loop_case local_ymd app disk 4 inp).1.records = app.records ∧
      (main_loop_case local_ymd app disk 4 inp).1.record_count = app.record_count ∧
      (main_loop_case local_ymd app disk 4 inp).1.today_count = app.today_count ∧
      (main_loop_case local_ymd app disk 4 inp).1.today_amount = app.today_amount ∧
      (main_loop_case local_ymd app disk 4 inp).1.is_running = app.is_running ∧
      (main_loop_case local_ymd app disk 4 inp).2 = disk ∧
      (app.paused = 0 ∨ app.paused = 1 →
        main_loop_case local_ymd (main_loop_case local_ymd app disk 4 inp).1
          (main_loop_case local_ymd app disk 4 inp).2 4 inp2 = (app, disk)) := by
  have e : main_loop_case local_ymd app disk 4 inp =
      ({ app with paused := c_not app.paused }, disk) := by
    simp [main_loop_case]
  rw [e]
  refine ⟨?_, ?_, rfl, rfl, rfl, rfl, rfl, rfl, rfl, rfl, ?_⟩
  · intro h; simp [c_not, h]
  · intro h; simp [c_not, h]
  · intro h
    have e2 : c_not (c_not app.paused) = app.paused := by
      rcases h with h | h <;> simp [c_not, h]
    simp [main_loop_case, e2]

/-- Witness of C10: toggling the unpaused `demo_empty` twice. -/
theorem pause_toggle_frame_witness :
    (demo_empty.paused = 0 ∨ demo_empty.paused = 1) ∧
      main_loop_case demo_ymd (main_loop_case demo_ymd demo_empty demo_disk 4 demo_menu).1
        (main_loop_case demo_ymd demo_empty demo_disk 4 demo_menu).2 4 demo_menu
          = (demo_empty, demo_disk) :=
  ⟨Or.inl rfl,
    (pause_toggle_frame demo_ymd demo_empty demo_disk demo_menu demo_menu).2.2.2.2.2.2.2.2.2.2
      (Or.inl rfl)⟩

/-! ## Statistics -/

/-- C11: `get_streak_days` returns the largest `k` with `0 <= k <= 365` such
that every day `d` in `[0, k)` has a total (sum of the amounts of the records
dated with the local date of `now - d * 86400`) of at least
`daily_goal * cup_size`: it counts the consecutive goal-meeting days walking
back from today, stops at the first day that misses the goal, and never
reports more than 365. -/
theorem get_streak_days_largest (local_ymd : Int → String) (app : AppState) (now : Int) :
    0 ≤ get_streak_days local_ymd app now ∧ get_streak_days local_ymd app now ≤ 365 ∧
      (∀ d : Int, 0 ≤ d → d < get_streak_days local_ymd app now →
        day_total local_ymd app now d ≥ app.config.daily_goal * app.config.cup_size) ∧
      (get_streak_days local_ymd app now < 365 →
        day_total local_ymd app now (get_streak_days local_ymd app now)
          < app.config.daily_goal * app.config.cup_size) ∧
      (∀ k : Int, 0 ≤ k → k ≤ 365 →
        (∀ d : Int, 0 ≤ d → d < k →
          day_total local_ymd app now d ≥ app.config.daily_goal * app.config.cup_size) →
        k ≤ get_streak_days local_ymd app now) := by
  obtain ⟨m, hm, heq, hall, hstop⟩ := streak_loop_spec local_ymd app now
    (app.config.daily_goal * app.config.cup_size) 365 0 0
  have hg : get_streak_days local_ymd app now = (m : Int) := by
    simp only [get_streak_days, heq]
    simp
  rw [hg]
  have hall2 : ∀ d : Int, 0 ≤ d → d < (m : Int) →
      day_total local_ymd app now d ≥ app.config.daily_goal * app.config.cup_size := by
    intro d h0 hd
    have := hall d.toNat (by omega)
    rw [zero_add, Int.toNat_of_nonneg h0] at this
    exact this
  have hstop2 : (m : Int) < 365 →
      day_total local_ymd app now (m : Int) < app.config.daily_goal * app.config.cup_size := by
    intro hlt
    have := hstop (by omega)
    rwa [zero_add] at this
  refine ⟨by omega, by omega, hall2, hstop2, ?_⟩
  intro k _ hk hkall
  by_contra hlt
  have hmk : (m : Int) < k := by omega
  have h1 := hstop2 (by omega)
  have h2 := hkall (m : Int) (by omega) hmk
  omega

/-- Witness of C11: in `demo_streak`, read at time 90000 (1970-01-02), the
streak is 2: today and yesterday meet the goal, the day before does not. -/
theorem get_streak_days_largest_witness :
    get_streak_days demo_ymd3 demo_streak 90000 = 2 ∧
      day_total demo_ymd3 demo_streak 90000 1
        ≥ demo_streak.config.daily_goal * demo_streak.config.cup_size ∧
      day_total demo_ymd3 demo_streak 90000 2
        < demo_streak.config.daily_goal * demo_streak.config.cup_size :=
  ⟨by decide,
    (get_streak_days_largest demo_ymd3 demo_streak 90000).2.2.1 1 (by decide) (by decide),
    by decide⟩

/-- C12: if the total of the records dated today is strictly below the goal
volume `daily_goal * cup_size`, `get_streak_days` returns 0, whatever the
record history holds for earlier days (non-empty or not). -/
theorem get_streak_days_zero_below_goal (local_ymd : Int → String) (app : AppState)
    (now : Int)
    (hbelow : spec_today_amount (get_current_date_str local_ymd now) (live app)
      < app.config.daily_goal * app.config.cup_size) :
    get_streak_days local_ymd app now = 0 := by
  have h0 : day_total local_ymd app now 0 < app.config.daily_goal * app.config.cup_size := by
    simpa [day_total, get_current_date_str] using hbelow
  have hs : ¬ daily_amount_scan app (target_date_str local_ymd now 0)
      ≥ app.config.daily_goal * app.config.cup_size := by
    rw [daily_amount_scan_eq]
    omega
  show streak_loop local_ymd app now (app.config.daily_goal * app.config.cup_size)
    (364 + 1) 0 0 = 0
  rw [streak_loop, if_neg hs]

/-- Witness of C12: in `demo_behind`, read at time 90000, yesterday met the
goal but today holds 1200 ml of 2000, and the streak is 0. -/
theorem get_streak_days_zero_below_goal_witness :
    0 < demo_behind.record_count ∧
      day_total demo_ymd3 demo_behind 90000 1
        ≥ demo_behind.config.daily_goal * demo_behind.config.cup_size ∧
      spec_today_amount (get_current_date_str demo_ymd3 90000) (live demo_behind)
        < demo_behind.config.daily_goal * demo_behind.config.cup_size ∧
      get_streak_days demo_ymd3 demo_behind 90000 = 0 :=
  ⟨by decide, by decide, by decide,
    get_streak_days_zero_below_goal demo_ymd3 demo_behind 90000 (by decide)⟩

/-- C13, as stated, fails: the function returns a `float`, not the exact
rational.  For `demo_thirds` read at time 90000 over 3 days the three daily
totals 400, 300, 300 are all positive, so the claimed value is `1000 / 3`;
the binary32 quotient `(float)1000 / 3` is `10922667 / 32768`
(333.33334...). -/
theorem calculate_daily_average_rounds :
    spec_daily_average demo_ymd3 demo_thirds 90000 3 = 1000 / 3 ∧
      calculate_daily_average demo_ymd3 demo_thirds 3 90000 = some (10922667 / 32768) ∧
      calculate_daily_average demo_ymd3 demo_thirds 3 90000
        ≠ some (spec_daily_average demo_ymd3 demo_thirds 90000 3) := by
  obtain ⟨hq, h0, h1, h2⟩ := demo_thirds_window
  have hspec : spec_daily_average demo_ymd3 demo_thirds 90000 3 = 1000 / 3 := by
    unfold spec_daily_average
    rw [hq]
    simp only [List.map_cons, List.map_nil, h0, h1, h2]
    norm_num
  have hcode : calculate_daily_average demo_ymd3 demo_thirds 3 90000
      = some (10922667 / 32768) := by
    rw [calculate_daily_average_eq, hq]
    simp only [List.map_cons, List.map_nil, h0, h1, h2]
    exact float_div_thirds
  refine ⟨hspec, hcode, ?_⟩
  rw [hcode, hspec]
  intro h
  have := Option.some.inj h
  norm_num at this

/-- C13 (amended): for `days <= 24855` (the range in which
`day * 24 * 60 * 60` stays within `int`), `calculate_daily_average` never
divides by zero (it always returns a value) and equals the binary32 quotient
`(float)S / N`, where `S` is the sum of the daily totals of the days of the
window `[0, days)` whose total is positive and `N` the number of such days;
it returns 0 when no day of the window has a positive total, and also when
`days <= 0` or the record store is empty.  When `S < 2 ^ 24` the returned
value is within a relative error of `2 ^ -24` of the exact rational `S / N`. -/
theorem calculate_daily_average_spec (local_ymd : Int → String) (app : AppState)
    (days now : Int) (hdays : days ≤ 24855) :
    calculate_daily_average local_ymd app days now ≠ none ∧
      calculate_daily_average local_ymd app days now =
        (if (qualifying_days local_ymd app now days).length = 0 then some 0
          else
            float_div
              ((qualifying_days local_ymd app now days).map
                (fun (d : Nat) => day_total local_ymd app now (d : Int))).sum
              ((qualifying_days local_ymd app now days).length : Int)) ∧
      ((∀ d : Nat, (d : Int) < days → ¬ 0 < day_total local_ymd app now (d : Int)) →
        calculate_daily_average local_ymd app days now = some 0) ∧
      (days ≤ 0 → calculate_daily_average local_ymd app days now = some 0) ∧
      (app.record_count ≤ 0 → calculate_daily_average local_ymd app days now = some 0) ∧
      ((qualifying_days local_ymd app now days).length ≠ 0 →
        ((qualifying_days local_ymd app now days).map
          (fun (d : Nat) => day_total local_ymd app now (d : Int))).sum < 2 ^ 24 →
        ∃ v : ℚ, calculate_daily_average local_ymd app days now = some v ∧
          |v - ((((qualifying_days local_ymd app now days).map
                (fun (d : Nat) => day_total local_ymd app now (d : Int))).sum : Int) : ℚ) /
              (((qualifying_days local_ymd app now days).length : Nat) : ℚ)|
            ≤ ((((qualifying_days local_ymd app now days).map
                (fun (d : Nat) => day_total local_ymd app now (d : Int))).sum : Int) : ℚ) /
              (((qualifying_days local_ymd app now days).length : Nat) : ℚ) / 2 ^ 24) := by
  have heq := calculate_daily_average_eq local_ymd app days now
  have hnone : (∀ d : Nat, (d : Int) < days → ¬ 0 < day_total local_ymd app now (d : Int)) →
      calculate_daily_average local_ymd app days now = some 0 := by
    intro h
    have hq : qualifying_days local_ymd app now days = [] := by
      unfold qualifying_days
      rw [List.filter_eq_nil_iff]
      intro d hd
      have hlt := List.mem_range.mp hd
      have := h d (by omega)
      simpa using this
    rw [heq]
    simp [hq]
  refine ⟨?_, heq, hnone, ?_, ?_, ?_⟩
  · rw [heq]
    by_cases hq : (qualifying_days local_ymd app now days).length = 0
    · rw [if_pos hq]
      simp
    · rw [if_neg hq]
      have hne : ((qualifying_days local_ymd app now days).length : Int) ≠ 0 := by omega
      simp [float_div, hne]
  · intro hd
    exact hnone (fun d hlt => by omega)
  · intro hr
    exact hnone (fun d _ => by rw [day_total_empty local_ymd app now _ hr]; decide)
  · intro hq hS
    have hpos := qualifying_sum_pos local_ymd app now days hq
    have hlen : (qualifying_days local_ymd app now days).length ≤ days.toNat := by
      unfold qualifying_days
      exact le_trans (List.length_filter_le _ _) (by rw [List.length_range])
    have hN : ((qualifying_days local_ymd app now days).length : Int) < 2 ^ 24 := by
      have : (2 : Int) ^ 24 = 16777216 := by norm_num
      omega
    obtain ⟨v, hv, hbound⟩ := float_div_accuracy _ _ hpos hS
      (by omega : (0 : Int) < ((qualifying_days local_ymd app now days).length : Int)) hN
    refine ⟨v, ?_, ?_⟩
    · rw [heq, if_neg hq]
      exact hv
    · simpa using hbound

/-- Witness of C13 (amended): over the two days ending at time 90000,
`demo_streak` averages `(float)4100 / 2 = 2050`; over an empty window the
average is 0. -/
theorem calculate_daily_average_spec_witness :
    (2 : Int) ≤ 24855 ∧
      calculate_daily_average demo_ymd3 demo_streak 2 90000 = some 2050 ∧
      calculate_daily_average demo_ymd3 demo_streak 0 90000 = some 0 :=
  ⟨by decide,
    by
      have hq : qualifying_days demo_ymd3 demo_streak 90000 2 = [0, 1] := by decide
      have h0 : day_total demo_ymd3 demo_streak 90000 ((0 : Nat) : Int) = 2100 := by decide
      have h1 : day_total demo_ymd3 demo_streak 90000 ((1 : Nat) : Int) = 2000 := by decide
      rw [(calculate_daily_average_spec demo_ymd3 demo_streak 2 90000 (by decide)).2.1, hq]
      simp only [List.map_cons, List.map_nil, h0, h1]
      exact float_div_demo,
    (calculate_daily_average_spec demo_ymd3 demo_streak 0 90000 (by decide)).2.2.2.1
      (by decide)⟩

/-! ## Configuration validation -/

/-- C14: each mid-session setter of `handle_settings` stores the entered value
`v` when it is in the field's range and otherwise resets the field to its
compile-time default: `reminder_interval` becomes `v` if `5 <= v <= 300` else
60, `daily_goal` becomes `v` if `1 <= v <= 20` else 8, `cup_size` becomes `v`
if `50 <= v <= 1000` else 250.  After the call the field lies in its valid
range and the other configuration fields are unchanged. -/
theorem handle_settings_setters (app : AppState) (disk : Disk) (ev : SettingsEvent)
    (v : Int) (hv : ev.value = some v) :
    (ev.choice = 1 →
        (handle_settings app disk [ev]).1.config =
            { app.config with
                reminder_interval := if 5 ≤ v ∧ v ≤ 300 then v else DEFAULT_REMINDER_INTERVAL } ∧
          5 ≤ (handle_settings app disk [ev]).1.config.reminder_interval ∧
          (handle_settings app disk [ev]).1.config.reminder_interval ≤ 300) ∧
      (ev.choice = 2 →
        (handle_settings app disk [ev]).1.config =
            { app.config with
                daily_goal := if 1 ≤ v ∧ v ≤ 20 then v else DEFAULT_DAILY_GOAL } ∧
          1 ≤ (handle_settings app disk [ev]).1.config.daily_goal ∧
          (handle_settings app disk [ev]).1.config.daily_goal ≤ 20) ∧
      (ev.choice = 3 →
        (handle_settings app disk [ev]).1.config =
            { app.config with
                cup_size := if 50 ≤ v ∧ v ≤ 1000 then v else DEFAULT_CUP_SIZE } ∧
          50 ≤ (handle_settings app disk [ev]).1.config.cup_size ∧
          (handle_settings app disk [ev]).1.config.cup_size ≤ 1000) := by
  refine ⟨?_, ?_, ?_⟩
  · intro hc
    by_cases hr : 5 ≤ v ∧ v ≤ 300
    · have hn : ¬ (v < 5 ∨ v > 300) := by omega
      simp [handle_settings, settings_case, hc, hv, hn, hr]
    · have hn : v < 5 ∨ v > 300 := by omega
      simp [handle_settings, settings_case, hc, hv, hn, hr]
      decide
  · intro hc
    by_cases hr : 1 ≤ v ∧ v ≤ 20
    · have hn : ¬ (v < 1 ∨ v > 20) := by omega
      simp [handle_settings, settings_case, hc, hv, hn, hr]
    · have hn : v < 1 ∨ v > 20 := by omega
      simp [handle_settings, settings_case, hc, hv, hn, hr]
      decide
  · intro hc
    by_cases hr : 50 ≤ v ∧ v ≤ 1000
    · have hn : ¬ (v < 50 ∨ v > 1000) := by omega
      simp [handle_settings, settings_case, hc, hv, hn, hr]
    · have hn : v < 50 ∨ v > 1000 := by omega
      simp [handle_settings, settings_case, hc, hv, hn, hr]
      decide

/-- Witness of C14: entering the out-of-range interval 3 resets the interval
of `demo_empty` to 60 and leaves the other fields. -/
theorem handle_settings_setters_witness :
    demo_short_interval_event.value = some 3 ∧ demo_short_interval_event.choice = 1 ∧
      (handle_settings demo_empty demo_disk [demo_short_interval_event]).1.config =
          { demo_empty.config with
              reminder_interval :=
                if (5 : Int) ≤ 3 ∧ (3 : Int) ≤ 300 then 3 else DEFAULT_REMINDER_INTERVAL } ∧
        5 ≤ (handle_settings demo_empty demo_disk
              [demo_short_interval_event]).1.config.reminder_interval ∧
        (handle_settings demo_empty demo_disk
              [demo_short_interval_event]).1.config.reminder_interval ≤ 300 :=
  ⟨rfl, rfl,
    (handle_settings_setters demo_empty demo_disk demo_short_interval_event 3 rfl).1 rfl⟩

/-- C15, as stated, fails for the entered intervals 1 to 4: first-run setup
given the interval 3, outside `[5, 300]`, stores 3 and not the default 60. -/
theorem setup_user_config_keeps_short_interval :
    ¬ ((5 : Int) ≤ demo_setup.interval ∧ demo_setup.interval ≤ 300) ∧
      (setup_user_config demo_config demo_setup).reminder_interval = 3 ∧
      (setup_user_config demo_config demo_setup).reminder_interval
        ≠ DEFAULT_REMINDER_INTERVAL := by
  decide

/-- C15 (amended): in first-run setup, every entered reminder interval outside
`[1, 300]` yields the default 60, and every entered value inside `[1, 300]`
(hence every value inside `[5, 300]`) is stored as entered. -/
theorem setup_user_config_interval (config : UserConfig) (inp : SetupInput) :
    (¬ (1 ≤ inp.interval ∧ inp.interval ≤ 300) →
        (setup_user_config config inp).reminder_interval = DEFAULT_REMINDER_INTERVAL) ∧
      (1 ≤ inp.interval ∧ inp.interval ≤ 300 →
        (setup_user_config config inp).reminder_interval = inp.interval) ∧
      (5 ≤ inp.interval ∧ inp.interval ≤ 300 →
        (setup_user_config config inp).reminder_interval = inp.interval) := by
  refine ⟨?_, ?_, ?_⟩
  · intro h
    have hn : ¬ (inp.interval > 0 ∧ inp.interval ≤ 300) := by omega
    simp [setup_user_config, hn]
  · intro h
    have hn : inp.interval > 0 ∧ inp.interval ≤ 300 := by omega
    simp [setup_user_config, hn]
  · intro h
    have hn : inp.interval > 0 ∧ inp.interval ≤ 300 := by omega
    simp [setup_user_config, hn]

/-- Witness of C15 (amended): the entered interval 3 lies in `[1, 300]` and is
stored. -/
theorem setup_user_config_interval_witness :
    (1 ≤ demo_setup.interval ∧ demo_setup.interval ≤ 300) ∧
      (setup_user_config demo_config demo_setup).reminder_interval = demo_setup.interval :=
  ⟨by decide, (setup_user_config_interval demo_config demo_setup).2.1 (by decide)⟩

/-- C16: the cup-size validation differs between the two paths: first-run
setup stores exactly the entered sizes in `[1, 1000]` and 250 otherwise, the
mid-session setter stores exactly those in `[50, 1000]` and 250 otherwise; so
for an entered size in `[1, 49]` setup stores it and the setter stores 250,
and for every other integer the two paths store the same value. -/
theorem cup_size_validation_asymmetry (config : UserConfig) (inp : SetupInput)
    (app : AppState) (disk : Disk) (ev : SettingsEvent) (v : Int)
    (hsize : inp.size = v) (hc : ev.choice = 3) (hv : ev.value = some v) :
    (setup_user_config config inp).cup_size = (if 1 ≤ v ∧ v ≤ 1000 then v else 250) ∧
      (handle_settings app disk [ev]).1.config.cup_size
        = (if 50 ≤ v ∧ v ≤ 1000 then v else 250) ∧
      (1 ≤ v ∧ v ≤ 49 →
        (setup_user_config config inp).cup_size = v ∧
          (handle_settings app disk [ev]).1.config.cup_size = 250) ∧
      (¬ (1 ≤ v ∧ v ≤ 49) →
        (setup_user_config config inp).cup_size
          = (handle_settings app disk [ev]).1.config.cup_size) := by
  have h1 : (setup_user_config config inp).cup_size = (if 1 ≤ v ∧ v ≤ 1000 then v else 250) := by
    by_cases hr : 1 ≤ v ∧ v ≤ 1000
    · have hn : v > 0 ∧ v ≤ 1000 := by omega
      simp [setup_user_config, hsize, hn, hr]
    · have hn : ¬ (v > 0 ∧ v ≤ 1000) := by omega
      simp [setup_user_config, hsize, hn, hr]
  have h2 : (handle_settings app disk [ev]).1.config.cup_size
      = (if 50 ≤ v ∧ v ≤ 1000 then v else 250) := by
    rw [((handle_settings_setters app disk ev v hv).2.2 hc).1]
  refine ⟨h1, h2, ?_, ?_⟩
  · intro hr
    rw [h1, h2, if_pos (by omega), if_neg (by omega)]
    exact ⟨rfl, rfl⟩
  · intro hr
    rw [h1, h2]
    by_cases ha : 50 ≤ v ∧ v ≤ 1000
    · rw [if_pos (by omega), if_pos ha]
    · rw [if_neg (by omega), if_neg ha]

/-- Witness of C16: the entered size 30 is stored by setup and replaced by 250
by the setter. -/
theorem cup_size_validation_asymmetry_witness :
    demo_setup.size = 30 ∧ demo_cup_event.choice = 3 ∧ demo_cup_event.value = some 30 ∧
      ((setup_user_config demo_config demo_setup).cup_size = 30 ∧
        (handle_settings demo_empty demo_disk [demo_cup_event]).1.config.cup_size = 250) :=
  ⟨rfl, rfl, rfl,
    (cup_size_validation_asymmetry demo_config demo_setup demo_empty demo_disk demo_cup_event
      30 rfl rfl rfl).2.2.1 (by decide)⟩

/-! ## Persistence -/

/-- C17, as stated, fails: `save_records` and `save_config` decide their
status from the count `fwrite` reports and discard the result of `fclose`.
With a write that is accepted in full but never flushed, `save_records` of
the two records of `demo_two` returns 0 and leaves an empty file, so the
following `load_records` yields `record_count == 0`; likewise `save_config`
returns 0 and the following `load_config` returns -1. -/
theorem save_reports_success_unflushed :
    (save_records demo_two demo_disk xfer_unflushed).2 = 0 ∧
      demo_two.record_count = 2 ∧
      (load_records demo_full (save_records demo_two demo_disk xfer_unflushed).1
        xfer_ok).1.record_count = 0 ∧
      (save_config demo_config demo_disk xfer_unflushed).2 = 0 ∧
      (load_config demo_config (save_config demo_config demo_disk xfer_unflushed).1
        xfer_ok).2 = -1 := by
  decide

/-- C17 (amended): round trip through storage.  For a record sequence with
`0 <= record_count <= MAX_RECORDS`, a `save_records` whose write reaches the
file in full (the file opens, `fwrite` takes every record and `fclose`
flushes them) returns 0, and a following `load_records` into any state whose
read is complete yields the same `record_count` and an identical record at
every index below it; likewise such a `save_config` returns 0 and the
following `load_config` returns 0 and reproduces the configuration.  The
status 0 by itself only says that the file opened and `fwrite` took every
item. -/
theorem save_load_round_trip (app app2 : AppState) (config config2 : UserConfig)
    (disk : Disk) (xf xf2 : Transfer) :
    (0 ≤ app.record_count → app.record_count ≤ (MAX_RECORDS : Int) →
        xf.open_ok = true → app.record_count.toNat ≤ xf.count →
        app.record_count.toNat ≤ xf.flushed →
        xf2.open_ok = true → app.record_count.toNat ≤ xf2.count →
        (save_records app disk xf).2 = 0 ∧
          (load_records app2 (save_records app disk xf).1 xf2).2 = 0 ∧
          (load_records app2 (save_records app disk xf).1 xf2).1.record_count
            = app.record_count ∧
          (∀ i : Nat, (i : Int) < app.record_count →
            (load_records app2 (save_records app disk xf).1 xf2).1.records i
              = app.records i)) ∧
      (xf.open_ok = true → 1 ≤ xf.count → 1 ≤ xf.flushed →
        xf2.open_ok = true → 1 ≤ xf2.count →
        (save_config config disk xf).2 = 0 ∧
          load_config config2 (save_config config disk xf).1 xf2 = (config, 0)) ∧
      (0 ≤ app.record_count → app.record_count ≤ (MAX_RECORDS : Int) →
        ((save_records app disk xf).2 = 0 ↔
          (xf.open_ok = true ∧ app.record_count.toNat ≤ xf.count))) ∧
      ((save_config config disk xf).2 = 0 ↔ (xf.open_ok = true ∧ 1 ≤ xf.count)) := by
  refine ⟨?_, ?_, ?_, save_config_status config disk xf⟩
  · intro h0 h1 ho hc hf hopen hcount
    have h1' : app.record_count ≤ 1000 := by simpa using h1
    have hst := (save_records_status app disk xf h0 h1').mpr ⟨ho, hc⟩
    have hfile := save_records_file app disk xf h0 h1' ho hc hf
    have hlen : (live app).length = app.record_count.toNat := live_length app
    have hn : min (min xf2.count (live app).length) MAX_RECORDS = app.record_count.toNat := by
      rw [hlen]
      simp only [MAX_RECORDS]
      omega
    refine ⟨hst, ?_⟩
    simp only [load_records, hopen, if_true, hfile, hn]
    refine ⟨trivial, by omega, ?_⟩
    intro i hi
    have hi' : i < app.record_count.toNat := by omega
    have hget := live_getElem? app i hi'
    simp [hi', List.getD, hget]
  · intro ho hc hf hopen hcount
    have hst := (save_config_status config disk xf).mpr ⟨ho, hc⟩
    have hfile := save_config_file config disk xf ho hc hf
    refine ⟨hst, ?_⟩
    simp [load_config, hopen, hfile, hcount]
  · intro h0 h1
    have h1' : app.record_count ≤ 1000 := by simpa using h1
    exact save_records_status app disk xf h0 h1'

/-- Witness of C17 (amended): `demo_two` saved to the empty storage and loaded
into the store at capacity, and `demo_config` saved and loaded, all with
transfers that succeed in full. -/
theorem save_load_round_trip_witness :
    ((save_records demo_two demo_disk xfer_ok).2 = 0 ∧
        (load_records demo_full (save_records demo_two demo_disk xfer_ok).1 xfer_ok).2 = 0 ∧
        (load_records demo_full (save_records demo_two demo_disk xfer_ok).1
          xfer_ok).1.record_count = demo_two.record_count ∧
        (∀ i : Nat, (i : Int) < demo_two.record_count →
          (load_records demo_full (save_records demo_two demo_disk xfer_ok).1
            xfer_ok).1.records i = demo_two.records i)) ∧
      ((save_config demo_config demo_disk xfer_ok).2 = 0 ∧
        load_config (set_default_config demo_config)
          (save_config demo_config demo_disk xfer_ok).1 xfer_ok = (demo_config, 0)) :=
  ⟨(save_load_round_trip demo_two demo_full demo_config (set_default_config demo_config)
      demo_disk xfer_ok xfer_ok).1 (by decide) (by decide) rfl (by decide) (by decide) rfl
      (by decide),
    (save_load_round_trip demo_two demo_full demo_config (set_default_config demo_config)
      demo_disk xfer_ok xfer_ok).2.1 rfl (by decide) (by decide) rfl (by decide)⟩

/-! ## Agreement of the statistics views -/

/-- C18: the two computations of the 7-day average agree.  `show_weekly_stats`
(days 6 down to 0) always produces its report; when it prints an average,
that average is the quotient `(float)weekly_total / weekly_days` and equals
`calculate_daily_average(app, 7)` (days 0 up to 6); it takes its "no records
this week" branch exactly when `calculate_daily_average(app, 7)` is 0, which
is exactly when no day of the window qualifies.  The same holds for
`show_monthly_stats` and `calculate_daily_average(app, 30)`. -/
theorem weekly_monthly_average_agree (local_ymd : Int → String) (app : AppState)
    (now : Int) :
    (∃ w : WeeklyStats, show_weekly_stats local_ymd app now = some w ∧
        (∀ q : ℚ, w.daily_avg = some q →
          float_div w.weekly_total w.weekly_days = some q ∧
            calculate_daily_average local_ymd app 7 now = some q) ∧
        (w.daily_avg = none ↔ calculate_daily_average local_ymd app 7 now = some 0) ∧
        (w.daily_avg = none ↔
          ∀ d : Nat, d < 7 → ¬ 0 < day_total local_ymd app now (d : Int))) ∧
      (∃ m : MonthlyStats, show_monthly_stats local_ymd app now = some m ∧
        (∀ q : ℚ, m.daily_avg = some q →
          float_div m.acc.monthly_total m.acc.monthly_days = some q ∧
            calculate_daily_average local_ymd app 30 now = some q) ∧
        (m.daily_avg = none ↔ calculate_daily_average local_ymd app 30 now = some 0) ∧
        (m.daily_avg = none ↔
          ∀ d : Nat, d < 30 → ¬ 0 < day_total local_ymd app now (d : Int))) := by
  constructor
  · obtain ⟨w, hw, ht, hd, havg⟩ := show_weekly_stats_eq local_ymd app now
    have hc := average_cases local_ymd app now 7
    have hn := qualifying_nil_iff local_ymd app now 7
    simp only [Nat.cast_ofNat] at hc hn
    refine ⟨w, hw, ?_, ?_, ?_⟩
    · intro q hq
      by_cases h0 : (qualifying_days local_ymd app now 7).length = 0
      · rw [havg, if_pos h0] at hq
        exact absurd hq (by simp)
      · rw [havg, if_neg h0] at hq
        refine ⟨hq, ?_⟩
        rw [(hc.2 h0).1, ← ht, ← hd]
        exact hq
    · by_cases h0 : (qualifying_days local_ymd app now 7).length = 0
      · rw [havg, if_pos h0]
        exact ⟨fun _ => hc.1 h0, fun _ => rfl⟩
      · have hsame : w.daily_avg = calculate_daily_average local_ymd app 7 now := by
          rw [havg, if_neg h0, (hc.2 h0).1, ← ht, ← hd]
        rw [hsame]
        exact ⟨fun h => absurd h (hc.2 h0).2.2, fun h => absurd h (hc.2 h0).2.1⟩
    · rw [← hn, havg]
      by_cases h0 : (qualifying_days local_ymd app now 7).length = 0
      · rw [if_pos h0]
        exact ⟨fun _ => h0, fun _ => rfl⟩
      · rw [if_neg h0]
        have hsome : float_div w.weekly_total w.weekly_days ≠ none := by
          rw [ht, hd, ← (hc.2 h0).1]
          exact (hc.2 h0).2.2
        exact ⟨fun h => absurd h hsome, fun h => absurd h h0⟩
  · obtain ⟨m, hm, ht, hd, havg⟩ := show_monthly_stats_eq local_ymd app now
    have hc := average_cases local_ymd app now 30
    have hn := qualifying_nil_iff local_ymd app now 30
    simp only [Nat.cast_ofNat] at hc hn
    refine ⟨m, hm, ?_, ?_, ?_⟩
    · intro q hq
      by_cases h0 : (qualifying_days local_ymd app now 30).length = 0
      · rw [havg, if_pos h0] at hq
        exact absurd hq (by simp)
      · rw [havg, if_neg h0] at hq
        refine ⟨hq, ?_⟩
        rw [(hc.2 h0).1, ← ht, ← hd]
        exact hq
    · by_cases h0 : (qualifying_days local_ymd app now 30).length = 0
      · rw [havg, if_pos h0]
        exact ⟨fun _ => hc.1 h0, fun _ => rfl⟩
      · have hsame : m.daily_avg = calculate_daily_average local_ymd app 30 now := by
          rw [havg, if_neg h0, (hc.2 h0).1, ← ht, ← hd]
        rw [hsame]
        exact ⟨fun h => absurd h (hc.2 h0).2.2, fun h => absurd h (hc.2 h0).2.1⟩
    · rw [← hn, havg]
      by_cases h0 : (qualifying_days local_ymd app now 30).length = 0
      · rw [if_pos h0]
        exact ⟨fun _ => h0, fun _ => rfl⟩
      · rw [if_neg h0]
        have hsome : float_div m.acc.monthly_total m.acc.monthly_days ≠ none := by
          rw [ht, hd, ← (hc.2 h0).1]
          exact (hc.2 h0).2.2
        exact ⟨fun h => absurd h hsome, fun h => absurd h h0⟩

/-- Witness of C18: for `demo_streak` read at time 90000 the weekly report
prints the average 2050, the value of `calculate_daily_average(app, 7)`. -/
theorem weekly_monthly_average_agree_witness :
    ∃ w : WeeklyStats, show_weekly_stats demo_ymd3 demo_streak 90000 = some w ∧
      w.daily_avg = some 2050 ∧
      calculate_daily_average demo_ymd3 demo_streak 7 90000 = some 2050 := by
  obtain ⟨w, hw, h1, h2, _⟩ := (weekly_monthly_average_agree demo_ymd3 demo_streak 90000).1
  refine ⟨w, hw, ?_, demo_streak_week_average⟩
  cases hda : w.daily_avg with
  | none =>
    have h0 := h2.mp hda
    rw [demo_streak_week_average] at h0
    exact absurd (Option.some.inj h0) (by norm_num)
  | some q =>
    have hq := (h1 q hda).2
    rw [demo_streak_week_average] at hq
    rw [Option.some.inj hq]

/-- C19: under a fixed-offset local calendar (two times have the same date
exactly when `floor((t + off) / 86400)` agrees), the window dates of
`now - d * 86400` are consecutive day numbers and pairwise distinct, so every
record matches at most one day of a weekly or monthly window and at most one
step of the streak walk; in particular the weekly total (and the monthly
total) never exceeds the sum of the amounts of all stored records when all
amounts are positive. -/
theorem fixed_offset_window_days_distinct (local_ymd : Int → String) (off : Int)
    (app : AppState) (now : Int)
    (hcal : ∀ t1 t2 : Int,
      local_ymd t1 = local_ymd t2 ↔ (t1 + off) / 86400 = (t2 + off) / 86400) :
    (∀ d : Int, (now - d * 24 * 60 * 60 + off) / 86400 = (now + off) / 86400 - d) ∧
      (∀ d1 d2 : Int,
        target_date_str local_ymd now d1 = target_date_str local_ymd now d2 → d1 = d2) ∧
      (∀ (i : Nat) (d1 d2 : Int),
        is_same_date (app.records i).date_str (target_date_str local_ymd now d1) ≠ 0 →
        is_same_date (app.records i).date_str (target_date_str local_ymd now d2) ≠ 0 →
        d1 = d2) ∧
      (∀ w : WeeklyStats, show_weekly_stats local_ymd app now = some w →
        (∀ r ∈ live app, 0 < r.amount) →
        w.weekly_total ≤ ((live app).map WaterRecord.amount).sum) ∧
      (∀ m : MonthlyStats, show_monthly_stats local_ymd app now = some m →
        (∀ r ∈ live app, 0 < r.amount) →
        m.acc.monthly_total ≤ ((live app).map WaterRecord.amount).sum) := by
  have hdist : ∀ d1 d2 : Int,
      target_date_str local_ymd now d1 = target_date_str local_ymd now d2 → d1 = d2 := by
    intro d1 d2 h
    have := (hcal _ _).mp h
    omega
  refine ⟨fun d => by omega, hdist, ?_, ?_, ?_⟩
  · intro i d1 d2 h1 h2
    have e1 : (app.records i).date_str = target_date_str local_ymd now d1 := by
      by_contra hne
      exact h1 (by simp [is_same_date, hne])
    have e2 : (app.records i).date_str = target_date_str local_ymd now d2 := by
      by_contra hne
      exact h2 (by simp [is_same_date, hne])
    exact hdist d1 d2 (e1.symm.trans e2)
  · intro w hw hpos
    obtain ⟨w2, hw2, ht, _, _⟩ := show_weekly_stats_eq local_ymd app now
    have hww : w = w2 := Option.some.inj (hw.symm.trans hw2)
    have hle := window_total_le local_ymd off app now hcal hpos 7
    simp only [Nat.cast_ofNat] at hle
    rw [hww, ht]
    exact hle
  · intro m hm hpos
    obtain ⟨m2, hm2, ht, _, _⟩ := show_monthly_stats_eq local_ymd app now
    have hmm : m = m2 := Option.some.inj (hm.symm.trans hm2)
    have hle := window_total_le local_ymd off app now hcal hpos 30
    simp only [Nat.cast_ofNat] at hle
    rw [hmm, ht]
    exact hle

/-- Witness of C19: the calendar `fixed_offset_ymd 3600` (one hour east of
UTC) and the store `demo_two`, read at time 90000. -/
theorem fixed_offset_window_days_distinct_witness :
    (∀ t1 t2 : Int,
        fixed_offset_ymd 3600 t1 = fixed_offset_ymd 3600 t2 ↔
          (t1 + 3600) / 86400 = (t2 + 3600) / 86400) ∧
      (∀ d1 d2 : Int,
        target_date_str (fixed_offset_ymd 3600) 90000 d1
          = target_date_str (fixed_offset_ymd 3600) 90000 d2 → d1 = d2) ∧
      (∀ w : WeeklyStats, show_weekly_stats (fixed_offset_ymd 3600) demo_two 90000 = some w →
        (∀ r ∈ live demo_two, 0 < r.amount) →
        w.weekly_total ≤ ((live demo_two).map WaterRecord.amount).sum) :=
  ⟨fixed_offset_ymd_same_day 3600,
    (fixed_offset_window_days_distinct (fixed_offset_ymd 3600) 3600 demo_two 90000
      (fixed_offset_ymd_same_day 3600)).2.1,
    (fixed_offset_window_days_distinct (fixed_offset_ymd 3600) 3600 demo_two 90000
      (fixed_offset_ymd_same_day 3600)).2.2.2.1⟩

/-! ## Eviction and today's total -/

/-- C20: at capacity, today's total is not monotone under append.  There is a
state with `record_count == MAX_RECORDS` whose oldest record is dated today
with amount `x`, and an amount `a` with `0 < a < x`, for which
`add_water_record(a)` on the same day leaves `today_count` unchanged and makes
`today_amount` strictly smaller, changing it by `a - x`.  For every state at
capacity with consistent today totals: when the oldest record is dated today
the total changes by `a - x` and the count is unchanged; when the evicted
record is not dated today, `today_amount` grows by exactly `a`. -/
theorem append_at_capacity_today_total :
    (∃ (local_ymd : Int → String) (app : AppState) (disk : Disk) (env : AddEnv)
        (today : String) (a x : Int),
        app.record_count = (MAX_RECORDS : Int) ∧ today_consistent today app ∧
          get_current_date_str local_ymd env.t_date = today ∧
          get_current_date_str local_ymd env.t_stats = today ∧
          (app.records 0).date_str = today ∧ (app.records 0).amount = x ∧
          0 < a ∧ a < x ∧
          (add_water_record local_ymd app disk a env).1.today_count = app.today_count ∧
          (add_water_record local_ymd app disk a env).1.today_amount < app.today_amount ∧
          (add_water_record local_ymd app disk a env).1.today_amount
            = app.today_amount + (a - x)) ∧
      (∀ (local_ymd : Int → String) (app : AppState) (disk : Disk) (env : AddEnv)
        (today : String) (a : Int),
        app.record_count = (MAX_RECORDS : Int) → today_consistent today app →
        get_current_date_str local_ymd env.t_date = today →
        get_current_date_str local_ymd env.t_stats = today → 0 < a →
        ((app.records 0).date_str = today →
            (add_water_record local_ymd app disk a env).1.today_count = app.today_count ∧
              (add_water_record local_ymd app disk a env).1.today_amount
                = app.today_amount + (a - (app.records 0).amount)) ∧
          ((app.records 0).date_str ≠ today →
            (add_water_record local_ymd app disk a env).1.today_amount
              = app.today_amount + a)) := by
  have huniv : ∀ (local_ymd : Int → String) (app : AppState) (disk : Disk) (env : AddEnv)
      (today : String) (a : Int),
      app.record_count = (MAX_RECORDS : Int) → today_consistent today app →
      get_current_date_str local_ymd env.t_date = today →
      get_current_date_str local_ymd env.t_stats = today → 0 < a →
      ((app.records 0).date_str = today →
          (add_water_record local_ymd app disk a env).1.today_count = app.today_count ∧
            (add_water_record local_ymd app disk a env).1.today_amount
              = app.today_amount + (a - (app.records 0).amount)) ∧
        ((app.records 0).date_str ≠ today →
          (add_water_record local_ymd app disk a env).1.today_amount
            = app.today_amount + a) := by
    intro local_ymd app disk env today a hfull hcons hd hs ha
    have hfull' : app.record_count = 1000 := by simpa using hfull
    obtain ⟨hc, hamt⟩ := add_full_today local_ymd app disk a env today hfull' ha hcons hd hs
    constructor
    · intro hdate
      have h1 : spec_today_count today [app.records 0] = 1 ∧
          spec_today_amount today [app.records 0] = (app.records 0).amount := by
        simp [spec_today_count, spec_today_amount, hdate]
      rw [hc, hamt, h1.1, h1.2]
      constructor <;> ring
    · intro hdate
      have h1 : spec_today_amount today [app.records 0] = 0 := by
        simp [spec_today_amount, hdate]
      rw [hamt, h1]
      ring
  refine ⟨?_, huniv⟩
  have hcase := (huniv demo_ymd demo_cap demo_disk (env_at 100) "1970-01-01" 250 rfl
    demo_cap_consistent rfl rfl (by decide)).1 rfl
  refine ⟨demo_ymd, demo_cap, demo_disk, env_at 100, "1970-01-01", 250, 500, rfl,
    demo_cap_consistent, rfl, rfl, rfl, rfl, by decide, by decide, hcase.1, ?_, hcase.2⟩
  rw [hcase.2]
  show demo_cap.today_amount + (250 - 500) < demo_cap.today_amount
  omega

/-- Witness of C20: in `demo_cap` the oldest record is a 500 ml record of
today; appending 250 ml at time 100 keeps the count and changes the total by
`250 - 500`. -/
theorem append_at_capacity_today_total_witness :
    demo_cap.record_count = (MAX_RECORDS : Int) ∧ (demo_cap.records 0).date_str = "1970-01-01" ∧
      ((add_water_record demo_ymd demo_cap demo_disk 250 (env_at 100)).1.today_count
          = demo_cap.today_count ∧
        (add_water_record demo_ymd demo_cap demo_disk 250 (env_at 100)).1.today_amount
          = demo_cap.today_amount + (250 - (demo_cap.records 0).amount)) :=
  ⟨rfl, rfl,
    (append_at_capacity_today_total.2 demo_ymd demo_cap demo_disk (env_at 100) "1970-01-01" 250
      rfl demo_cap_consistent rfl rfl (by decide)).1 rfl⟩

end WaterReminder
